import Mathlib

/-!
Shallow embedding of the `thestreet` relay (crates `world`, `protocol`, `relay`,
`wallet`) and proofs about its specification claims.

Modelling conventions:
* Rust `HashMap<String, V>` is modelled as an association list
  `List (String × V)` with lookup / insert-or-replace / remove helpers;
  `HashSet<String>` as a duplicate-free `List String`.
* Rust `i32`/`i64` become `Int` (no arithmetic in the modelled code comes near
  the overflow boundary), `u32`/`u64` become `Nat`.
* `f64` values (train coordinates) become `ℚ`: the embedded code only ever
  compares them, and `ℚ` carries the same linear order on the values that
  actually occur.
-/

set_option maxRecDepth 16384

namespace TheStreet

-- Batteries marks the `ℚ` field operations `irreducible`, which blocks
-- `decide`-style evaluation of the embedded train arithmetic; restore the
-- default reducibility for this development.
attribute [local semireducible] Rat.add Rat.sub Rat.mul Rat.inv

/-! ### Association-list model of `HashMap<String, _>` -/

/-- Lookup in an association list (model of `HashMap::get`). -/
def alookup (k : String) : List (String × α) → Option α
  | [] => none
  | (k', v) :: rest => if k' = k then some v else alookup k rest

/-- Insert-or-replace (model of `HashMap::insert`). -/
def aupsert (k : String) (v : α) : List (String × α) → List (String × α)
  | [] => [(k, v)]
  | (k', v') :: rest => if k' = k then (k, v) :: rest else (k', v') :: aupsert k v rest

/-- Remove a key (model of `HashMap::remove`). -/
def aerase (k : String) : List (String × α) → List (String × α)
  | [] => []
  | (k', v) :: rest => if k' = k then aerase k rest else (k', v) :: aerase k rest

/-- Set insertion on a duplicate-free list (model of `HashSet::insert`). -/
def hsInsert (x : String) (l : List String) : List String :=
  if x ∈ l then l else x :: l

/-! ### World geometry (`crates/world/src/map.rs`, `doors.rs`, `monorail.rs`) -/

def STREET_HEIGHT : Int := 16
def ROOM_WIDTH : Int := 32
def ROOM_HEIGHT : Int := 16
def STREET_CIRCUMFERENCE_TILES : Int := 4096
def STATION_WIDTH : Int := 32
def STATION_HEIGHT : Int := 16
def TRAIN_WIDTH : Int := 32
def TRAIN_HEIGHT : Int := 16
def DOOR_SPACING : Int := 6
def DOOR_OFFSET : Int := 3

inductive Tile
  | Wall
  | Door
  | StationDoor
  | Customizer
  | Floor
deriving DecidableEq

structure Position where
  map_id : String
  x : Int
  y : Int
deriving DecidableEq

inductive RoomSide
  | North
  | South
deriving DecidableEq

def RoomSide.as_str : RoomSide → String
  | .North => "north"
  | .South => "south"

def TRACK_ROW_TOP : Int := STREET_HEIGHT / 2 - 1
def TRACK_ROW_BOTTOM : Int := STREET_HEIGHT / 2
def STATION_DOOR_Y_TOP : Int := TRACK_ROW_TOP - 1
def STATION_DOOR_Y_BOTTOM : Int := TRACK_ROW_BOTTOM + 1

/-- Modelled from the spec: `physics.rs` refers to `monorail::STATION_DOOR_Y`, a
constant absent from the provided `monorail.rs`; per spec §4.1/§4.4 the two
station-door rows behave symmetrically, so the street row a station exit lands
on is modelled as the bottom station-door row. No claim depends on the choice. -/
def STATION_DOOR_Y : Int := STATION_DOOR_Y_BOTTOM

def station_positions : List Int :=
  [0, STREET_CIRCUMFERENCE_TILES / 4, STREET_CIRCUMFERENCE_TILES / 4 * 2,
    STREET_CIRCUMFERENCE_TILES / 4 * 3]

def STATION_LABELS : List String := ["north", "east", "south", "west"]

/-- ASCII lower-casing (kernel-reducible model of `str::to_ascii_lowercase`,
used to embed `eq_ignore_ascii_case`; the compared labels are plain ASCII). -/
def lowerAscii (s : String) : String :=
  String.mk (s.toList.map (fun c =>
    if 'A' ≤ c ∧ c ≤ 'Z' then Char.ofNat (c.toNat + 32) else c))

/-- `station_x_for_label`. -/
def station_x_for_label (label : String) : Option Int :=
  ((STATION_LABELS.zip station_positions).find?
    (fun e => lowerAscii e.1 = lowerAscii label)).map (·.2)

/-- `is_station_x`; Rust `rem_euclid` on a positive modulus is `Int.emod`. -/
def is_station_x (x : Int) : Bool :=
  let wrapped := x % STREET_CIRCUMFERENCE_TILES
  station_positions.any (fun pos => pos = wrapped)

def station_x_for_coord (x : Int) : Option Int :=
  if ¬ is_station_x x then none
  else some (x % STREET_CIRCUMFERENCE_TILES)

def is_station_door (x y : Int) : Bool :=
  decide (y = STATION_DOOR_Y_TOP ∨ y = STATION_DOOR_Y_BOTTOM) && is_station_x x

def station_map_id (station_x : Int) : String := "station/" ++ toString station_x

def train_map_id (train_id : Nat) : String := "train/" ++ toString train_id

/-- Kernel-reducible list-prefix test. -/
def listIsPfxOf : List Char → List Char → Bool
  | [], _ => true
  | _ :: _, [] => false
  | a :: as, b :: bs => decide (a = b) && listIsPfxOf as bs

/-- Model of `str::strip_prefix` (structural, kernel-reducible). -/
def stripPfx (p s : String) : Option String :=
  if listIsPfxOf p.toList s.toList then
    some (String.mk (s.toList.drop p.toList.length))
  else none

/-- Decimal-digit parse of a whole char list (the digits of `"0"..="9"`);
`none` on empty input or any non-digit. -/
def digitsToNat? (cs : List Char) : Option Nat :=
  if cs.isEmpty then none
  else if cs.all Char.isDigit then
    some (cs.foldl (fun acc c => acc * 10 + (c.toNat - ('0').toNat)) 0)
  else none

/-- Kernel-reducible model of Rust's integer `FromStr` (optional sign,
then decimal digits). -/
def parseIntChars? : List Char → Option Int
  | '-' :: rest => (digitsToNat? rest).map (fun n => -(n : Int))
  | '+' :: rest => (digitsToNat? rest).map (fun n => (n : Int))
  | cs => (digitsToNat? cs).map (fun n => (n : Int))

/-- Kernel-reducible model of Rust's unsigned `FromStr`. -/
def parseNatChars? : List Char → Option Nat
  | '+' :: rest => digitsToNat? rest
  | cs => digitsToNat? cs

def strToInt? (s : String) : Option Int := parseIntChars? s.toList

def strToNat? (s : String) : Option Nat := parseNatChars? s.toList

def parse_station_map_id (map_id : String) : Option Int :=
  (stripPfx "station/" map_id).bind strToInt?

def parse_train_map_id (map_id : String) : Option Nat :=
  (stripPfx "train/" map_id).bind strToNat?

def street_door_side (x y : Int) : Option RoomSide :=
  let offset := x % DOOR_SPACING
  if y = 0 ∧ offset = 0 then some .North
  else if y = STREET_HEIGHT - 1 ∧ offset = DOOR_OFFSET then some .South
  else none

def room_id_for_door (side : RoomSide) (street_x : Int) : String :=
  side.as_str ++ ":" ++ toString street_x

def room_map_id (room_id : String) : String := "room/" ++ room_id

/-- Split a char list at every occurrence of `sep` (model of `str::split`). -/
def splitChar (sep : Char) : List Char → List (List Char)
  | [] => [[]]
  | c :: rest =>
    let r := splitChar sep rest
    if c = sep then [] :: r
    else match r with
      | [] => [[c]]
      | g :: gs => (c :: g) :: gs

def parse_room_id (room_id : String) : Option (RoomSide × Int) :=
  match splitChar ':' room_id.toList with
  | [side, x_part] =>
    match parseIntChars? x_part with
    | none => none
    | some street_x =>
      match String.mk side with
      | "north" => some (.North, street_x)
      | "south" => some (.South, street_x)
      | _ => none
  | _ => none

def parse_room_map_id (map_id : String) : Option (RoomSide × Int) :=
  (stripPfx "room/" map_id).bind parse_room_id

def room_door_position (side : RoomSide) : Int × Int :=
  (ROOM_WIDTH / 2, match side with | .North => ROOM_HEIGHT - 1 | .South => 0)

def room_entry_position (side : RoomSide) : Int × Int :=
  (ROOM_WIDTH / 2, match side with | .North => ROOM_HEIGHT - 2 | .South => 1)

def street_entry_position (side : RoomSide) (street_x : Int) : Int × Int :=
  (street_x, match side with | .North => 1 | .South => STREET_HEIGHT - 2)

def room_customizer_position : Int × Int := (1, 1)

def street_tile (x y : Int) : Tile :=
  if is_station_door x y then .StationDoor
  else if y = 0 ∨ y = STREET_HEIGHT - 1 then
    if (street_door_side x y).isSome then .Door else .Wall
  else .Floor

def room_tile (x y : Int) (side : RoomSide) : Tile :=
  if (x, y) = room_customizer_position then .Customizer
  else if x = 0 ∨ x = ROOM_WIDTH - 1 ∨ y = 0 ∨ y = ROOM_HEIGHT - 1 then
    if (x, y) = room_door_position side then .Door else .Wall
  else .Floor

def station_tile (x y : Int) : Tile :=
  if x = 0 ∨ x = STATION_WIDTH - 1 ∨ y = 0 ∨ y = STATION_HEIGHT - 1 then
    if x = STATION_WIDTH / 2 ∧ (y = 0 ∨ y = STATION_HEIGHT - 1) then .Door else .Wall
  else .Floor

def station_entry_position : Int × Int := (STATION_WIDTH / 2, STATION_HEIGHT - 2)

def station_entry_position_for_street_y (street_y : Int) : Int × Int :=
  (STATION_WIDTH / 2,
    if street_y = STATION_DOOR_Y_TOP then 1
    else if street_y = STATION_DOOR_Y_BOTTOM then STATION_HEIGHT - 2
    else STATION_HEIGHT - 2)

def train_tile (x y : Int) : Tile :=
  if x = 0 ∨ x = TRAIN_WIDTH - 1 ∨ y = 0 ∨ y = TRAIN_HEIGHT - 1 then .Wall else .Floor

/-! ### Movement engine (`crates/world/src/physics.rs`) -/

inductive Direction
  | Up
  | Down
  | Left
  | Right
deriving DecidableEq

inductive MoveOutcome
  | Moved (p : Position)
  | Transition (p : Position)
  | Blocked
deriving DecidableEq

def step (x y : Int) (dir : Direction) : Int × Int :=
  match dir with
  | .Up => (x, y - 1)
  | .Down => (x, y + 1)
  | .Left => (x - 1, y)
  | .Right => (x + 1, y)

def move_on_street (position : Position) (dir : Direction) : MoveOutcome :=
  let nxy := step position.x position.y dir
  let nx := nxy.1
  let ny := nxy.2
  if ny < 0 ∨ ny ≥ STREET_HEIGHT then .Blocked
  else match street_tile nx ny with
  | .Wall | .Customizer => .Blocked
  | .Door =>
    match street_door_side nx ny with
    | some side =>
      let room_id := room_id_for_door side nx
      .Transition ⟨room_map_id room_id, (room_entry_position side).1,
        (room_entry_position side).2⟩
    | none => .Blocked
  | .StationDoor =>
    match station_x_for_coord nx with
    | none => .Blocked
    | some station_x =>
      .Transition ⟨station_map_id station_x, station_entry_position.1,
        station_entry_position.2⟩
  | .Floor => .Moved ⟨position.map_id, nx, ny⟩

def move_in_room (position : Position) (dir : Direction) (side : RoomSide)
    (street_x : Int) : MoveOutcome :=
  let nxy := step position.x position.y dir
  let nx := nxy.1
  let ny := nxy.2
  if nx < 0 ∨ nx ≥ ROOM_WIDTH ∨ ny < 0 ∨ ny ≥ ROOM_HEIGHT then .Blocked
  else match room_tile nx ny side with
  | .Wall | .Customizer => .Blocked
  | .Door =>
    .Transition ⟨"street", (street_entry_position side street_x).1,
      (street_entry_position side street_x).2⟩
  | .Floor | .StationDoor => .Moved ⟨position.map_id, nx, ny⟩

def move_in_station (position : Position) (dir : Direction) (station_x : Int) :
    MoveOutcome :=
  let nxy := step position.x position.y dir
  let nx := nxy.1
  let ny := nxy.2
  if nx < 0 ∨ nx ≥ STATION_WIDTH ∨ ny < 0 ∨ ny ≥ STATION_HEIGHT then .Blocked
  else match station_tile nx ny with
  | .Wall | .Customizer => .Blocked
  | .Door => .Transition ⟨"street", station_x, STATION_DOOR_Y⟩
  | .Floor | .StationDoor => .Moved ⟨position.map_id, nx, ny⟩

def move_in_train (position : Position) (dir : Direction) : MoveOutcome :=
  let nxy := step position.x position.y dir
  let nx := nxy.1
  let ny := nxy.2
  if nx < 0 ∨ nx ≥ TRAIN_WIDTH ∨ ny < 0 ∨ ny ≥ TRAIN_HEIGHT then .Blocked
  else match train_tile nx ny with
  | .Wall => .Blocked
  | _ => .Moved ⟨position.map_id, nx, ny⟩

def try_move (position : Position) (dir : Direction) : MoveOutcome :=
  if position.map_id = "street" then move_on_street position dir
  else match parse_room_map_id position.map_id with
  | some sx => move_in_room position dir sx.1 sx.2
  | none =>
    match parse_station_map_id position.map_id with
    | some station_x => move_in_station position dir station_x
    | none =>
      if (parse_train_map_id position.map_id).isSome then move_in_train position dir
      else .Blocked

/-! ### Train ring arithmetic (`crates/relay/src/server.rs::station_passed`)

The Rust function compares `f64` values; it is embedded over `ℚ`, which has
the same linear order on every value the relay produces (no NaN is involved:
train positions and station coordinates are ordinary finite numbers). -/

/-- `f64::EPSILON` = 2⁻⁵². -/
def f64_EPSILON : ℚ := 1 / 2 ^ 52

/-- `f64::abs` (kernel-reducible form of `|·|` on `ℚ`). -/
def ratAbs (q : ℚ) : ℚ := if q < 0 then -q else q

def station_passed (prev next station _circumference : ℚ) (clockwise : Bool) :
    Bool :=
  if ratAbs (prev - next) < f64_EPSILON then false
  else if clockwise then
    if prev ≤ next then decide (station ≥ prev ∧ station ≤ next)
    else decide (station ≥ prev ∨ station ≤ next)
  else
    if next ≤ prev then decide (station ≥ next ∧ station ≤ prev)
    else decide (station ≥ next ∨ station ≤ prev)

/-! ### Base64 (model of the `base64` crate's `general_purpose::STANDARD` engine)

The engine used by `protocol/src/signing.rs` requires canonical padding and
rejects invalid characters, stray padding and non-zero trailing bits; encoding
produces the standard alphabet with `=` padding. -/

def base64Alphabet : List Char :=
  "ABCDEFGHIJKLMNOPQRSTUVWXYZabcdefghijklmnopqrstuvwxyz0123456789+/".toList

/-- The character for a 6-bit value. -/
def b64Char (v : Nat) : Char := base64Alphabet.getD v '?'

/-- The 6-bit value of an alphabet character (`none` for any other char,
including `=`). -/
def b64Val (c : Char) : Option Nat := base64Alphabet.findIdx? (fun c' => c' = c)

/-- Standard base64 encoding of a byte list. -/
def b64EncodeBytes : List Nat → List Char
  | [] => []
  | [a] => [b64Char (a / 4), b64Char (a % 4 * 16), '=', '=']
  | [a, b] => [b64Char (a / 4), b64Char (a % 4 * 16 + b / 16), b64Char (b % 16 * 4), '=']
  | a :: b :: c :: rest =>
    b64Char (a / 4) :: b64Char (a % 4 * 16 + b / 16) ::
      b64Char (b % 16 * 4 + c / 64) :: b64Char (c % 64) :: b64EncodeBytes rest

/-- Standard base64 decoding; `none` models the engine's `DecodeError`
(invalid character, stray or non-terminal padding, non-canonical length, or
non-zero trailing padding bits). -/
def b64DecodeChars : List Char → Option (List Nat)
  | [] => some []
  | c1 :: c2 :: c3 :: c4 :: rest =>
    if rest.isEmpty ∧ c3 = '=' ∧ c4 = '=' then
      match b64Val c1, b64Val c2 with
      | some v1, some v2 => if v2 % 16 = 0 then some [v1 * 4 + v2 / 16] else none
      | _, _ => none
    else if rest.isEmpty ∧ c4 = '=' then
      match b64Val c1, b64Val c2, b64Val c3 with
      | some v1, some v2, some v3 =>
        if v3 % 4 = 0 then some [v1 * 4 + v2 / 16, v2 % 16 * 16 + v3 / 4] else none
      | _, _, _ => none
    else
      match b64Val c1, b64Val c2, b64Val c3, b64Val c4, b64DecodeChars rest with
      | some v1, some v2, some v3, some v4, some bytes =>
        some ((v1 * 4 + v2 / 16) :: (v2 % 16 * 16 + v3 / 4) ::
          (v3 % 4 * 64 + v4) :: bytes)
      | _, _, _, _, _ => none
  | _ => none

def base64_encode (bytes : List Nat) : String := String.mk (b64EncodeBytes bytes)

def base64_decode (s : String) : Option (List Nat) := b64DecodeChars s.toList

/-! ### Envelope codec (`crates/protocol/src/messages.rs`, `signing.rs`)

The payload (`serde_json::Value`) is opaque to every claim, so envelopes are
polymorphic in a payload type `P`.  The JSON serializer (`serde_json::to_vec`,
an external crate: a pure function of the signable value) and the Ed25519
primitives of `ed25519_dalek` (`SigningKey::sign`, `VerifyingKey::verify_strict`)
are abstracted as function parameters; the theorems state the hypotheses they
satisfy (determinism is automatic for Lean functions; signature correctness is
an explicit hypothesis). -/

structure SignableEnvelope (P : Type) where
  message_type : String
  id : String
  ts : Int
  payload : P
deriving DecidableEq

structure Envelope (P : Type) where
  message_type : String
  id : String
  ts : Int
  sig : Option String
  payload : P
deriving DecidableEq

/-- The verifier's reconstruction `{type, id, ts, payload}` of the signable
object (omitting `sig`). -/
def signable_of (env : Envelope P) : SignableEnvelope P :=
  ⟨env.message_type, env.id, env.ts, env.payload⟩

/-- `signing.rs::sign_envelope`: serialize the canonical 4-field object, sign
it, base64-encode the signature. -/
def sign_envelope (serialize : SignableEnvelope P → List Nat)
    (sign : List Nat → List Nat) (message_type id : String) (ts : Int)
    (payload : P) : Envelope P :=
  let bytes := serialize ⟨message_type, id, ts, payload⟩
  let sig_b64 := base64_encode (sign bytes)
  ⟨message_type, id, ts, some sig_b64, payload⟩

def unsigned_envelope (message_type id : String) (ts : Int) (payload : P) :
    Envelope P :=
  ⟨message_type, id, ts, none, payload⟩

/-- `signing.rs::verify_envelope`: `Ok false` for a missing signature,
`Err` for a signature that fails base64 decoding or is not 64 bytes (the `?`
on `decode` and the `map_err` on the length conversion), otherwise strict
verification of the reconstructed signable bytes. -/
def verify_envelope (serialize : SignableEnvelope P → List Nat)
    (verify_strict : List Nat → List Nat → Bool) (env : Envelope P) :
    Except String Bool :=
  match env.sig with
  | none => .ok false
  | some sig_b64 =>
    match base64_decode sig_b64 with
    | none => .error "invalid base64"
    | some sig_bytes =>
      if sig_bytes.length = 64 then
        .ok (verify_strict (serialize (signable_of env)) sig_bytes)
      else .error "invalid signature length"

/-- `server.rs::requires_signature`. -/
def requires_signature (message_type : String) : Bool :=
  if message_type = "client.auth" ∨ message_type = "client.heartbeat" then false
  else if listIsPfxOf "client.".toList message_type.toList then true
  else false

/-! ### Protocol payload types (`crates/protocol/src/messages.rs`) -/

inductive AccessMode
  | Open
  | Whitelist
  | Blacklist
deriving DecidableEq

structure AccessPolicy where
  mode : AccessMode
  list : List String
deriving DecidableEq

inductive ChatScope
  | Local
  | Whisper
  | Room
deriving DecidableEq

structure EncryptedPayload where
  alg : String
  nonce : String
  ciphertext : String
  sender_key : Option String
deriving DecidableEq

structure ClientChat where
  scope : Option ChatScope
  text : String
  target : Option String
  enc : Option EncryptedPayload
deriving DecidableEq

structure NearbyUser where
  id : String
  display_name : Option String
  x : Int
  y : Int
  x25519_pubkey : Option String
deriving DecidableEq

structure TrainInfo where
  id : Nat
  x : ℚ
  clockwise : Bool
deriving DecidableEq

structure WhoUser where
  id : String
  display_name : Option String
deriving DecidableEq

/-- `ServerChat`; the Rust field `from` is named `from_user` here (`from` is a
Lean keyword). -/
structure ServerChat where
  from_user : String
  display_name : Option String
  text : String
  scope : ChatScope
  room_id : Option String
  enc : Option EncryptedPayload
deriving DecidableEq

structure ServerRoomInfo where
  room_id : String
  owner : Option String
  price_xmr : String
  for_sale : Bool
  access : AccessPolicy
  display_name : Option String
  door_color : Option String
deriving DecidableEq

/-- An outbound server message, one constructor per `server.*` payload the
modelled handlers emit. -/
inductive OutMsg
  | errorMsg (code message : String)
  | notice (text : String)
  | stateMsg (position : Position)
  | mapChange (map_id : String) (position : Position)
  | nearby (users : List NearbyUser)
  | roomInfo (info : ServerRoomInfo)
  | chat (c : ServerChat)
  | txUpdate (tx_id status : String) (confirmations : Nat)
  | welcome (client_id : String) (display_name : Option String)
      (position : Position) (session_id : String)
  | trainState (trains : List TrainInfo)
  | whoMsg (users : List WhoUser)
deriving DecidableEq

/-! ### Relay state (`crates/relay/src/state.rs`)

`UserState.x25519_pubkey` and `TrainState.clockwise` are written and read
throughout `server.rs` (`handle_connection`, `collect_nearby_from_list`, the
train loop); the provided `state.rs` snapshot omits the two fields its own
server uses, so the structures here carry them. -/

structure UserState where
  user_id : String
  pubkey : String
  display_name : Option String
  position : Position
  x25519_pubkey : Option String
deriving DecidableEq

structure RoomState where
  room_id : String
  owner_pubkey : Option String
  price_xmr : String
  for_sale : Bool
  access : AccessPolicy
  display_name : Option String
  door_color : Option String
deriving DecidableEq

structure TrainState where
  id : Nat
  x : ℚ
  speed : ℚ
  clockwise : Bool
deriving DecidableEq

structure BoardingRequest where
  station_x : Int
  destination_x : Int
deriving DecidableEq

structure TrainRide where
  train_id : Nat
  destination_x : Int
deriving DecidableEq

/-- One `(id, prev, next, clockwise)` tuple of the train-loop `updates` list. -/
structure TrainUpdate where
  id : Nat
  prev : ℚ
  next : ℚ
  clockwise : Bool
deriving DecidableEq

/-- `state.rs::ServerState` (named as `server.rs` imports it).  `clients`
keeps only the user ids of the live `ClientHandle`s: the write-sinks are the
event destinations of the model. -/
structure RelayState where
  next_user_id : Nat
  users : List (String × UserState)
  users_by_pubkey : List (String × String)
  rooms : List (String × RoomState)
  clients : List String
  connected_users_by_map : List (String × List String)
  trains : List TrainState
  boarding : List (String × BoardingRequest)
  riders : List (String × TrainRide)
  last_move_ms : List (String × Int)

def plistGet (p : List (String × List String)) (m : String) : List String :=
  (alookup m p).getD []

def presenceAdd (p : List (String × List String)) (uid m : String) :
    List (String × List String) :=
  aupsert m (hsInsert uid (plistGet p m)) p

def presenceRemove (p : List (String × List String)) (uid m : String) :
    List (String × List String) :=
  match alookup m p with
  | some entry =>
    let entry' := entry.filter (fun x => x ≠ uid)
    if entry'.isEmpty then aerase m p else aupsert m entry' p
  | none => p

def presenceMove (p : List (String × List String)) (uid from_map to_map : String) :
    List (String × List String) :=
  if from_map = to_map then p
  else presenceAdd (presenceRemove p uid from_map) uid to_map

def RelayState.add_connected_user (s : RelayState) (uid map_id : String) :
    RelayState :=
  { s with connected_users_by_map := presenceAdd s.connected_users_by_map uid map_id }

def RelayState.remove_connected_user (s : RelayState) (uid map_id : String) :
    RelayState :=
  { s with connected_users_by_map :=
      presenceRemove s.connected_users_by_map uid map_id }

def RelayState.move_connected_user (s : RelayState) (uid from_map to_map : String) :
    RelayState :=
  { s with connected_users_by_map :=
      presenceMove s.connected_users_by_map uid from_map to_map }

def create_user (s : RelayState) (pubkey : String) : UserState × RelayState :=
  let user_id := "u_" ++ toString s.next_user_id
  let user : UserState :=
    { user_id := user_id, pubkey := pubkey, display_name := none,
      position := { map_id := "street", x := 0, y := 1 }, x25519_pubkey := none }
  (user,
    { s with next_user_id := s.next_user_id + 1,
             users_by_pubkey := aupsert pubkey user_id s.users_by_pubkey,
             users := aupsert user_id user s.users })

def RelayState.get_or_create_room (s : RelayState) (room_id price_xmr : String) :
    RoomState × RelayState :=
  match alookup room_id s.rooms with
  | some room => (room, s)
  | none =>
    let room : RoomState :=
      { room_id := room_id, owner_pubkey := none, price_xmr := price_xmr,
        for_sale := true, access := { mode := .Open, list := [] },
        display_name := none, door_color := none }
    (room, { s with rooms := aupsert room_id room s.rooms })

/-! ### Config and mock wallet (`crates/common/src/config.rs`,
`crates/wallet/src/mock.rs`) -/

inductive DevFeeMode
  | Bps
  | Percent
deriving DecidableEq

structure DevFeeConfig where
  mode : DevFeeMode
  value : Nat
deriving DecidableEq

structure RelayConfig where
  room_price_xmr : String
  username_fee_xmr : String
  dev_wallet_pubkey : String
  dev_fee : DevFeeConfig

inductive TxState
  | Pending
  | Confirmed
  | Failed
deriving DecidableEq

structure TxStatus where
  tx_id : String
  status : TxState
  confirmations : Nat
deriving DecidableEq

def natValChars (cs : List Char) : Nat :=
  cs.foldl (fun acc c => acc * 10 + (c.toNat - ('0').toNat)) 0

/-- Model of `str::parse::<f64>().ok()` on the plain decimal forms
(`[sign] digits [. digits]`) that the relay and its configuration produce;
other f64 syntaxes (exponents, `inf`, `nan`) do not occur in the modelled
inputs and parse to `none`. -/
def parseF64? (s : String) : Option ℚ :=
  let sr : ℚ × List Char :=
    match s.toList with
    | '-' :: rest => (-1, rest)
    | '+' :: rest => (1, rest)
    | cs => (1, cs)
  let sign := sr.1
  let cs := sr.2
  let ip := cs.takeWhile Char.isDigit
  let rest := cs.dropWhile Char.isDigit
  match rest with
  | [] => if ip.isEmpty then none else some (sign * (natValChars ip : ℚ))
  | '.' :: frac =>
    if frac.all Char.isDigit ∧ (¬ ip.isEmpty ∨ ¬ frac.isEmpty) then
      some (sign * ((natValChars ip : ℚ) +
        (natValChars frac : ℚ) / 10 ^ frac.length))
    else none
  | _ => none

def padZeros (s : String) (w : Nat) : String :=
  String.mk (List.replicate (w - s.length) '0') ++ s

/-- Model of `format!("{:.8}", x)`: fixed 8 fraction digits, rounding to the
nearest multiple of 10⁻⁸ (half up; every value the modelled handlers format is
an exact multiple, so the tie rule is never exercised). -/
def fmt8 (q : ℚ) : String :=
  if q < 0 then
    "-" ++ (let n := (⌊-q * 100000000 + 1/2⌋).toNat
      toString (n / 100000000) ++ "." ++ padZeros (toString (n % 100000000)) 8)
  else
    let n := (⌊q * 100000000 + 1/2⌋).toNat
    toString (n / 100000000) ++ "." ++ padZeros (toString (n % 100000000)) 8

/-- `MockWallet`; `f64` balances are `ℚ`, and `Uuid::new_v4` is modelled as a
fresh id drawn from the `next_tx` counter (no claim depends on id values). -/
structure MockWallet where
  balances : List (String × ℚ)
  txs : List (String × TxStatus)
  next_tx : Nat
deriving DecidableEq

def MockWallet.credit (w : MockWallet) (pubkey : String) (amount : ℚ) :
    MockWallet :=
  { w with balances :=
      aupsert pubkey ((alookup pubkey w.balances).getD 0 + amount) w.balances }

/-- `get_balance` (the mock never fails). -/
def MockWallet.get_balance (w : MockWallet) (pubkey : String) : String :=
  fmt8 ((alookup pubkey w.balances).getD 0)

def MockWallet.send (w : MockWallet) (from_pubkey to_pubkey : String)
    (amount_xmr fee_xmr : String) : Except String (String × MockWallet) :=
  let amount := (parseF64? amount_xmr).getD 0
  let fee := (parseF64? fee_xmr).getD 0
  let total := amount + fee
  let from_balance := (alookup from_pubkey w.balances).getD 0
  if from_balance < total then .error "insufficient funds"
  else
    let b1 := aupsert from_pubkey (from_balance - total) w.balances
    let to_balance := (alookup to_pubkey b1).getD 0
    let b2 := aupsert to_pubkey (to_balance + amount) b1
    let tx_id := "tx_" ++ toString w.next_tx
    let status : TxStatus := { tx_id := tx_id, status := .Pending, confirmations := 0 }
    .ok (tx_id,
      { balances := b2, txs := aupsert tx_id status w.txs,
        next_tx := w.next_tx + 1 })

/-! ### Server helpers and handlers (`crates/relay/src/server.rs`)

Each handler is the state-and-output part of the corresponding `async fn`:
it maps the relay state (and wallet where used) to the successor state and the
list of `(recipient user id, message)` events pushed onto session sinks, in
emission order. -/

def LOCAL_CHAT_WIDTH : Int := 16
def LOCAL_CHAT_HEIGHT : Int := 16
def WHISPER_WIDTH : Int := 5
def WHISPER_HEIGHT : Int := 5
def MOVE_INTERVAL_MS : Int := 60

def in_box (ax ay bx b_y width height : Int) : Bool :=
  let half_w := width / 2
  let half_h := height / 2
  let min_x := ax - half_w
  let max_x := min_x + width - 1
  let min_y := ay - half_h
  let max_y := min_y + height - 1
  decide (bx ≥ min_x ∧ bx ≤ max_x ∧ b_y ≥ min_y ∧ b_y ≤ max_y)

def room_access_allowed (room : RoomState) (pubkey : String) : Bool :=
  if room.owner_pubkey = some pubkey then true
  else match room.access.mode with
  | .Open => true
  | .Whitelist => room.access.list.any (fun p => p = pubkey)
  | .Blacklist => !room.access.list.any (fun p => p = pubkey)

def connected_users_in_map (s : RelayState) (map_id : String) : List UserState :=
  (plistGet s.connected_users_by_map map_id).filterMap
    (fun id => alookup id s.users)

def mkNearbyUser (u : UserState) : NearbyUser :=
  { id := u.user_id, display_name := u.display_name, x := u.position.x,
    y := u.position.y, x25519_pubkey := u.x25519_pubkey }

def collect_nearby_from_list (user : UserState) : List UserState → List NearbyUser
  | [] => []
  | other :: rest =>
    if other.user_id = user.user_id then collect_nearby_from_list user rest
    else mkNearbyUser other :: collect_nearby_from_list user rest

def refresh_nearby_for_map (s : RelayState) (map_id : String) :
    List (String × OutMsg) :=
  let users_in_map := connected_users_in_map s map_id
  if users_in_map.isEmpty then []
  else
    users_in_map.filterMap (fun user =>
      if user.user_id ∈ s.clients then
        some (user.user_id,
          OutMsg.nearby (collect_nearby_from_list user users_in_map))
      else none)

/-- `send_room_info`'s payload. -/
def mkServerRoomInfo (room : RoomState) : ServerRoomInfo :=
  { room_id := room.room_id, owner := room.owner_pubkey,
    price_xmr := room.price_xmr, for_sale := room.for_sale,
    access := room.access, display_name := room.display_name,
    door_color := room.door_color }

def trainInfoOf (t : TrainState) : TrainInfo :=
  { id := t.id, x := t.x, clockwise := t.clockwise }

/-- `str::contains` for plain substrings. -/
def strContains (hay needle : String) : Bool :=
  hay.toList.tails.any (fun t => listIsPfxOf needle.toList t)

def compute_fee (amount : String) (config : DevFeeConfig) : String :=
  let amount_value := (parseF64? amount).getD 0
  let fee := match config.mode with
    | .Bps => amount_value * (config.value : ℚ) / 10000
    | .Percent => amount_value * (config.value : ℚ) / 100
  fmt8 fee

/-- `wallet_send`: on wallet failure the error code depends on the message
text; the caller receives `(code, message)` as a `server.error`. -/
def wallet_send (w : MockWallet) (from_pubkey to_pubkey amount fee : String) :
    Except (String × String) (String × MockWallet) :=
  match MockWallet.send w from_pubkey to_pubkey amount fee with
  | .ok r => .ok r
  | .error message =>
    let code := if strContains message "insufficient" then "insufficient_funds"
      else "wallet_error"
    .error (code, message)

/-- `handle_balance` (the mock wallet's `get_balance` never fails, so only the
notice branch occurs). -/
def handle_balance (user : UserState) (w : MockWallet) : List (String × OutMsg) :=
  [(user.user_id,
    OutMsg.notice ("balance: " ++ MockWallet.get_balance w user.pubkey ++ " XMR"))]

/-- `users.get_mut(uid)` followed by `entry.position = pos`. -/
def update_user_position (s : RelayState) (uid : String) (pos : Position) :
    RelayState :=
  match alookup uid s.users with
  | some entry => { s with users := aupsert uid { entry with position := pos } s.users }
  | none => s

/-- `handle_move` (rate limit, `try_move`, then the blocked / moved /
transition arms; the room arm gates on `room_access_allowed` after
`get_or_create_room`). -/
def handle_move (now : Int) (dir : Direction) (user : UserState)
    (s : RelayState) (config : RelayConfig) : RelayState × List (String × OutMsg) :=
  let last := (alookup user.user_id s.last_move_ms).getD 0
  if now - last < MOVE_INTERVAL_MS then (s, [])
  else
    let s := { s with last_move_ms := aupsert user.user_id now s.last_move_ms }
    let prev_map := user.position.map_id
    match try_move user.position dir with
    | .Blocked => (s, [(user.user_id, OutMsg.errorMsg "move_blocked" "blocked")])
    | .Moved pos =>
      let s := update_user_position s user.user_id pos
      (s, [(user.user_id, OutMsg.stateMsg pos)] ++ refresh_nearby_for_map s pos.map_id)
    | .Transition pos =>
      match parse_room_map_id pos.map_id with
      | some sx =>
        let rs := RelayState.get_or_create_room s (room_id_for_door sx.1 sx.2)
          config.room_price_xmr
        let room := rs.1
        let s := rs.2
        if ¬ room_access_allowed room user.pubkey then
          (s, [(user.user_id, OutMsg.errorMsg "room_access_denied" "room access denied")])
        else
          let s := update_user_position s user.user_id pos
          let s := if ¬ listIsPfxOf "station/".toList pos.map_id.toList then
              { s with boarding := aerase user.user_id s.boarding }
            else s
          let s := RelayState.move_connected_user s user.user_id prev_map pos.map_id
          (s, [(user.user_id, OutMsg.mapChange pos.map_id pos),
               (user.user_id, OutMsg.roomInfo (mkServerRoomInfo room))]
            ++ refresh_nearby_for_map s prev_map
            ++ refresh_nearby_for_map s pos.map_id)
      | none =>
        let s := update_user_position s user.user_id pos
        let s := if ¬ listIsPfxOf "station/".toList pos.map_id.toList then
            { s with boarding := aerase user.user_id s.boarding }
          else s
        let s := RelayState.move_connected_user s user.user_id prev_map pos.map_id
        (s, [(user.user_id, OutMsg.mapChange pos.map_id pos)]
          ++ refresh_nearby_for_map s prev_map
          ++ refresh_nearby_for_map s pos.map_id)

/-- The validation and recipient selection of `handle_chat`; `.error e` is the
single error/notice reply sent to the caller, `.ok recipients` the computed
recipient ids in push order. -/
def chat_recipients (payload : ClientChat) (user : UserState) (s : RelayState) :
    Except OutMsg (List String) :=
  let users_in_map := connected_users_in_map s user.position.map_id
  match payload.scope.getD .Local with
  | .Whisper =>
    match payload.enc with
    | none => .error (OutMsg.errorMsg "invalid_command" "whisper must be encrypted")
    | some enc =>
      if enc.sender_key = none then
        .error (OutMsg.errorMsg "invalid_command" "missing whisper sender key")
      else
        match payload.target with
        | none => .error (OutMsg.errorMsg "invalid_command" "usage: /whisper <user> <msg>")
        | some target =>
          match users_in_map.find? (fun u =>
              decide (u.user_id = target ∨ u.display_name = some target)) with
          | none => .error (OutMsg.errorMsg "invalid_command" "whisper target not found")
          | some target_user =>
            if ¬ in_box user.position.x user.position.y target_user.position.x
                target_user.position.y WHISPER_WIDTH WHISPER_HEIGHT then
              .error (OutMsg.notice "whisper target out of range")
            else
              .ok ([user.user_id] ++
                if target_user.user_id ≠ user.user_id then [target_user.user_id] else [])
  | .Room =>
    if user.position.map_id = "street" then
      .error (OutMsg.errorMsg "invalid_command" "not in a room")
    else if payload.enc = none then
      .error (OutMsg.errorMsg "invalid_command" "room chat must be encrypted")
    else
      .ok (if user.position.map_id ≠ "street" then
          users_in_map.map (·.user_id)
        else [])
  | .Local =>
    if user.position.map_id ≠ "street" ∧ payload.enc = none then
      .error (OutMsg.errorMsg "invalid_command" "room chat must be encrypted")
    else if user.position.map_id = "street" ∧ payload.enc ≠ none then
      .error (OutMsg.errorMsg "invalid_command" "street chat cannot be encrypted")
    else
      .ok (users_in_map.filterMap (fun other =>
        if (if user.position.map_id = "street" then
            in_box user.position.x user.position.y other.position.x
              other.position.y LOCAL_CHAT_WIDTH LOCAL_CHAT_HEIGHT
          else true) then
          some other.user_id
        else none))

/-- `handle_chat`: forward the chat to every recipient with a live session,
then the "no recipients" notice iff the recipient list is empty. -/
def handle_chat (payload : ClientChat) (user : UserState) (s : RelayState) :
    List (String × OutMsg) :=
  match chat_recipients payload user s with
  | .error e => [(user.user_id, e)]
  | .ok recipients =>
    let chat : ServerChat :=
      { from_user := user.user_id, display_name := user.display_name,
        text := payload.text, scope := payload.scope.getD .Local,
        room_id := stripPfx "room/" user.position.map_id, enc := payload.enc }
    (recipients.filterMap (fun rid =>
      if rid ∈ s.clients then some (rid, OutMsg.chat chat) else none))
    ++ (if recipients.isEmpty then [(user.user_id, OutMsg.notice "no recipients")] else [])

/-- The recipient search of `handle_pay` (`HashMap::values` iteration is
modelled as entry order). -/
def find_user_by_name_or_id (s : RelayState) (target : String) :
    Option UserState :=
  (s.users.map Prod.snd).find? (fun u =>
    decide (u.user_id = target ∨ u.display_name = some target))

def handle_pay (args : List String) (user : UserState) (s : RelayState)
    (w : MockWallet) (config : RelayConfig) : MockWallet × List (String × OutMsg) :=
  match args with
  | target :: amount :: _ =>
    match find_user_by_name_or_id s target with
    | none => (w, [(user.user_id, OutMsg.errorMsg "invalid_command" "recipient not found")])
    | some recipient =>
      let fee := compute_fee amount config.dev_fee
      match wallet_send w user.pubkey recipient.pubkey amount "0" with
      | .error cm => (w, [(user.user_id, OutMsg.errorMsg cm.1 cm.2)])
      | .ok (tx_id, w1) =>
        match wallet_send w1 user.pubkey config.dev_wallet_pubkey fee "0" with
        | .error cm => (w1, [(user.user_id, OutMsg.errorMsg cm.1 cm.2)])
        | .ok (_, w2) =>
          (w2, [(user.user_id, OutMsg.txUpdate tx_id "pending" 0)]
            ++ handle_balance user w2)
  | _ => (w, [(user.user_id, OutMsg.errorMsg "invalid_command" "usage: /pay <user> <amount>")])

/-- `handle_buy`; `tx_uuid` models the fresh `Uuid::new_v4` of the success
`server.tx_update`. -/
def handle_buy (tx_uuid : String) (user : UserState) (s : RelayState)
    (w : MockWallet) (config : RelayConfig) :
    RelayState × MockWallet × List (String × OutMsg) :=
  match parse_room_map_id user.position.map_id with
  | none => (s, w, [(user.user_id, OutMsg.errorMsg "invalid_command" "not in a room")])
  | some sx =>
    let room_id := room_id_for_door sx.1 sx.2
    let rs := RelayState.get_or_create_room s room_id config.room_price_xmr
    let room := rs.1
    let s := rs.2
    if ¬ room.for_sale then
      (s, w, [(user.user_id, OutMsg.errorMsg "invalid_command" "room not for sale")])
    else
      let price := room.price_xmr
      let fee := compute_fee price config.dev_fee
      let first_send :=
        match room.owner_pubkey with
        | some owner_pubkey => wallet_send w user.pubkey owner_pubkey price "0"
        | none => wallet_send w user.pubkey config.dev_wallet_pubkey price "0"
      match first_send with
      | .error cm => (s, w, [(user.user_id, OutMsg.errorMsg cm.1 cm.2)])
      | .ok (_, w1) =>
        match wallet_send w1 user.pubkey config.dev_wallet_pubkey fee "0" with
        | .error cm => (s, w1, [(user.user_id, OutMsg.errorMsg cm.1 cm.2)])
        | .ok (_, w2) =>
          let updated := { room with
            owner_pubkey := some user.pubkey
            for_sale := false }
          let s := { s with rooms := aupsert room_id updated s.rooms }
          (s, w2,
            [(user.user_id, OutMsg.txUpdate tx_uuid "confirmed" 8),
             (user.user_id, OutMsg.roomInfo (mkServerRoomInfo updated))]
            ++ handle_balance user w2)

def handle_claim_name (args : List String) (user : UserState) (s : RelayState)
    (w : MockWallet) (config : RelayConfig) :
    RelayState × MockWallet × List (String × OutMsg) :=
  match args with
  | [] => (s, w, [(user.user_id, OutMsg.errorMsg "invalid_command" "usage: /claim_name <name>")])
  | name :: _ =>
    if (s.users.map Prod.snd).any (fun u => decide (u.display_name = some name)) then
      (s, w, [(user.user_id, OutMsg.errorMsg "invalid_command" "name already taken")])
    else
      let fee := compute_fee config.username_fee_xmr config.dev_fee
      match wallet_send w user.pubkey config.dev_wallet_pubkey
          config.username_fee_xmr "0" with
      | .error cm => (s, w, [(user.user_id, OutMsg.errorMsg cm.1 cm.2)])
      | .ok (_, w1) =>
        match wallet_send w1 user.pubkey config.dev_wallet_pubkey fee "0" with
        | .error cm => (s, w1, [(user.user_id, OutMsg.errorMsg cm.1 cm.2)])
        | .ok (_, w2) =>
          let s :=
            match alookup user.user_id s.users with
            | some entry =>
              let entry' := { entry with display_name := some name }
              { s with users := aupsert user.user_id entry' s.users }
            | none => s
          (s, w2, [(user.user_id, OutMsg.notice "name updated")]
            ++ handle_balance user w2)

def handle_faucet (args : List String) (user : UserState) (w : MockWallet) :
    MockWallet × List (String × OutMsg) :=
  let amount := (args.head?.bind parseF64?).getD 5
  let w := MockWallet.credit w user.pubkey amount
  (w, [(user.user_id, OutMsg.notice ("faucet: +" ++ fmt8 amount ++ " XMR"))]
    ++ handle_balance user w)

/-! ### Session lifecycle (`handle_connection`) -/

/-- The state-mutating tail of successful challenge verification in
`handle_connection` (lines 143-200): find-or-create the user, overwrite
`x25519_pubkey` if presented, reject a duplicate session, otherwise register
the session, index presence, and emit welcome / train-state / nearby.
Returns `(state, wallet, events, closed)` where `closed` is true on the
`already_connected` rejection. -/
def auth_register (s : RelayState) (w : MockWallet) (pubkey : String)
    (x25519_pubkey : Option String) (session_id : String) :
    RelayState × MockWallet × List (String × OutMsg) × Bool :=
  let fetched : UserState × RelayState × MockWallet :=
    match alookup pubkey s.users_by_pubkey with
    | some user_id =>
      match alookup user_id s.users with
      | some u => (u, s, w)
      | none =>
        let cu := create_user s pubkey
        (cu.1, cu.2, w)
    | none =>
      let cu := create_user s pubkey
      (cu.1, cu.2, MockWallet.credit w pubkey 10)
  let user₀ := fetched.1
  let s₁ := fetched.2.1
  let w₁ := fetched.2.2
  let upd : UserState × RelayState :=
    match x25519_pubkey with
    | some k =>
      ({ user₀ with x25519_pubkey := some k },
        match alookup user₀.user_id s₁.users with
        | some entry =>
          let entry' := { entry with x25519_pubkey := some k }
          { s₁ with users := aupsert user₀.user_id entry' s₁.users }
        | none => s₁)
    | none => (user₀, s₁)
  let user := upd.1
  let s₂ := upd.2
  if user.user_id ∈ s₂.clients then
    (s₂, w₁,
      [(user.user_id, OutMsg.errorMsg "already_connected" "user already connected")],
      true)
  else
    let s₃ := { s₂ with clients := hsInsert user.user_id s₂.clients }
    let s₄ := RelayState.add_connected_user s₃ user.user_id user.position.map_id
    (s₄, w₁,
      [(user.user_id, OutMsg.welcome user.user_id user.display_name
          user.position session_id),
       (user.user_id, OutMsg.trainState (s₄.trains.map trainInfoOf))]
        ++ refresh_nearby_for_map s₄ user.position.map_id,
      false)

/-- The `Closed` cleanup of `handle_connection` (lines 264-277): drop the
session, presence entry, boarding request and ride, then refresh the
abandoned map.  `map_id` is the session's snapshot of the user's map. -/
def disconnect (s : RelayState) (uid map_id : String) :
    RelayState × List (String × OutMsg) :=
  let s := { s with clients := s.clients.filter (fun c => c ≠ uid) }
  let s := RelayState.remove_connected_user s uid map_id
  let s := { s with boarding := aerase uid s.boarding, riders := aerase uid s.riders }
  (s, refresh_nearby_for_map s map_id)

/-! ### Train tick (`handle_boarding`, `handle_riders`) -/

/-- The body of `handle_boarding`'s per-entry loop: returns the successor
state, the emitted events, and whether the entry joins `to_remove`. -/
def board_entry (updates : List TrainUpdate) (s : RelayState) (uid : String)
    (req : BoardingRequest) : RelayState × List (String × OutMsg) × Bool :=
  if (alookup uid s.riders).isSome then (s, [], true)
  else
    let valid_station :=
      match alookup uid s.users with
      | some user => parse_station_map_id user.position.map_id = some req.station_x
      | none => false
    if !valid_station then (s, [], true)
    else
      match updates.find? (fun u =>
          station_passed u.prev u.next (req.station_x : ℚ)
            (STREET_CIRCUMFERENCE_TILES : ℚ) u.clockwise) with
      | none => (s, [], false)
      | some u =>
        match alookup uid s.users with
        | none => (s, [], true)
        | some user =>
          let previous_map := user.position.map_id
          let new_map := train_map_id u.id
          let pos' : Position := { map_id := new_map, x := TRAIN_WIDTH / 2, y := TRAIN_HEIGHT / 2 }
          let user' := { user with position := pos' }
          let ride : TrainRide := { train_id := u.id, destination_x := req.destination_x }
          let s := { s with
            users := aupsert uid user' s.users
            riders := aupsert uid ride s.riders }
          let s := RelayState.move_connected_user s uid previous_map new_map
          let events :=
            (if uid ∈ s.clients then
              [(uid, OutMsg.mapChange new_map user'.position),
               (uid, OutMsg.notice "boarded train")]
            else [])
            ++ refresh_nearby_for_map s previous_map
            ++ refresh_nearby_for_map s new_map
          (s, events, true)

def boarding_loop (updates : List TrainUpdate) :
    List (String × BoardingRequest) → RelayState →
      RelayState × List (String × OutMsg) × List String
  | [], s => (s, [], [])
  | (uid, req) :: rest, s =>
    let r₁ := board_entry updates s uid req
    let r₂ := boarding_loop updates rest r₁.1
    (r₂.1, r₁.2.1 ++ r₂.2.1, (if r₁.2.2 then [uid] else []) ++ r₂.2.2)

/-- `handle_boarding`: process the snapshot of `state.boarding` (HashMap
iteration modelled as entry order), then remove the collected requests. -/
def handle_boarding (s : RelayState) (updates : List TrainUpdate) :
    RelayState × List (String × OutMsg) :=
  let r := boarding_loop updates s.boarding s
  (r.2.2.foldl (fun st u => { st with boarding := aerase u st.boarding }) r.1,
    r.2.1)

/-- The body of `handle_riders`' per-entry loop. -/
def rider_entry (updates : List TrainUpdate) (s : RelayState) (uid : String)
    (ride : TrainRide) : RelayState × List (String × OutMsg) × Bool :=
  match updates.find? (fun u => u.id = ride.train_id) with
  | none => (s, [], false)
  | some u =>
    let valid_train :=
      match alookup uid s.users with
      | some user => user.position.map_id = train_map_id ride.train_id
      | none => false
    if !valid_train then (s, [], true)
    else if station_passed u.prev u.next (ride.destination_x : ℚ)
        (STREET_CIRCUMFERENCE_TILES : ℚ) u.clockwise then
      match alookup uid s.users with
      | none => (s, [], true)
      | some user =>
        let previous_map := user.position.map_id
        let station_map := station_map_id ride.destination_x
        let street_y := if u.clockwise then STATION_DOOR_Y_BOTTOM
          else STATION_DOOR_Y_TOP
        let ep := station_entry_position_for_street_y street_y
        let pos' : Position := { map_id := station_map, x := ep.1, y := ep.2 }
        let user' := { user with position := pos' }
        let s := { s with users := aupsert uid user' s.users }
        let s := RelayState.move_connected_user s uid previous_map station_map
        let events :=
          (if uid ∈ s.clients then
            [(uid, OutMsg.mapChange station_map user'.position),
             (uid, OutMsg.notice "disembarked train")]
          else [])
          ++ refresh_nearby_for_map s previous_map
          ++ refresh_nearby_for_map s station_map
        (s, events, true)
    else (s, [], false)

def riders_loop (updates : List TrainUpdate) :
    List (String × TrainRide) → RelayState →
      RelayState × List (String × OutMsg) × List String
  | [], s => (s, [], [])
  | (uid, ride) :: rest, s =>
    let r₁ := rider_entry updates s uid ride
    let r₂ := riders_loop updates rest r₁.1
    (r₂.1, r₁.2.1 ++ r₂.2.1, (if r₁.2.2 then [uid] else []) ++ r₂.2.2)

/-- `handle_riders`: process the snapshot of `state.riders`, then remove the
finished rides. -/
def handle_riders (s : RelayState) (updates : List TrainUpdate) :
    RelayState × List (String × OutMsg) :=
  let r := riders_loop updates s.riders s
  (r.2.2.foldl (fun st u => { st with riders := aerase u st.riders }) r.1,
    r.2.1)

/-! ### The signature gate of the live session loop -/

/-- Outcome of the signature check at the top of the live loop body
(`server.rs` lines 209-217): `continueWith events dispatched` keeps the
session open (`dispatched` = the message reaches the command dispatch), while
`terminated` is the `?`-propagation of a `verify_envelope` error, which ends
the read loop and closes the connection. -/
inductive LoopStep
  | continueWith (events : List (String × OutMsg)) (dispatched : Bool)
  | terminated
deriving DecidableEq

def signature_gate (serialize : SignableEnvelope P → List Nat)
    (verify_strict : List Nat → List Nat → Bool) (uid : String)
    (env : Envelope P) : LoopStep :=
  if requires_signature env.message_type then
    match verify_envelope serialize verify_strict env with
    | .error _ => .terminated
    | .ok false =>
      .continueWith [(uid, OutMsg.errorMsg "invalid_signature" "signature required")]
        false
    | .ok true => .continueWith [] true
  else .continueWith [] true

/-! ### Invariants (spec §3/§8)

`PresenceOK` is the inductive strengthening of the presence invariant: a map's
presence set holds exactly the connected users whose stored position is that
map.  `ClaimedPresenceInv` is the invariant exactly as the spec states it. -/

def PresenceOK (users : List (String × UserState)) (clients : List String)
    (presence : List (String × List String)) : Prop :=
  ∀ u m, u ∈ plistGet presence m ↔
    (u ∈ clients ∧ ∃ st, alookup u users = some st ∧ st.position.map_id = m)

/-- Every stored user record's `user_id` equals its key (all inserts into
`state.users` key by `user_id`). -/
def UserKeysOK (users : List (String × UserState)) : Prop :=
  ∀ k st, alookup k users = some st → st.user_id = k

/-- Boarding requests and rides belong to connected users (disconnect removes
both; they are only created by connected sessions). -/
def TicketsOK (s : RelayState) : Prop :=
  (∀ e ∈ s.boarding, e.1 ∈ s.clients) ∧ (∀ e ∈ s.riders, e.1 ∈ s.clients)

def StateWF (s : RelayState) : Prop :=
  PresenceOK s.users s.clients s.connected_users_by_map ∧
    UserKeysOK s.users ∧ TicketsOK s

/-- The presence invariant as claimed: every connected user is in the presence
set of exactly `position.map_id`. -/
def ClaimedPresenceInv (s : RelayState) : Prop :=
  ∀ u st, u ∈ s.clients → alookup u s.users = some st →
    u ∈ plistGet s.connected_users_by_map st.position.map_id ∧
    ∀ m, m ≠ st.position.map_id → u ∉ plistGet s.connected_users_by_map m

/-- Every connected user has a stored record and appears in the presence set
of its stored map. -/
def PresenceComplete (users : List (String × UserState)) (clients : List String)
    (presence : List (String × List String)) : Prop :=
  ∀ u ∈ clients, ∃ st, alookup u users = some st ∧
    u ∈ plistGet presence st.position.map_id

/-- Every presence-set member has a stored record whose map is that set's map
(connected or not: a session closed with a stale map snapshot leaves its
user's entry behind, always at the stored map, because every other presence
move is atomic with the position write). -/
def PresenceSound (users : List (String × UserState))
    (presence : List (String × List String)) : Prop :=
  ∀ u m, u ∈ plistGet presence m →
    ∃ st, alookup u users = some st ∧ st.position.map_id = m

/-- The ghost-tolerant inductive strengthening of the presence invariant:
completeness and soundness of the presence sets plus records keyed by their
`user_id`.  Unlike the exact two-sided `StateWF` it survives a disconnect
whose session map snapshot went stale. -/
def StateInv (s : RelayState) : Prop :=
  PresenceComplete s.users s.clients s.connected_users_by_map ∧
  PresenceSound s.users s.connected_users_by_map ∧
  UserKeysOK s.users

/-! ## Theorems -/

/-! ### Association-list lemmas -/

@[simp] theorem alookup_aupsert (k k' : String) (v : α) (l : List (String × α)) :
    alookup k' (aupsert k v l) = if k = k' then some v else alookup k' l := by
  induction l with
  | nil => simp [aupsert, alookup]
  | cons e rest ih =>
    obtain ⟨k₀, v₀⟩ := e
    by_cases h : k₀ = k
    · subst h
      simp only [aupsert, if_pos rfl, alookup]
      by_cases h' : k₀ = k'
      · subst h'; simp
      · simp [h']
    · simp only [aupsert, if_neg h, alookup]
      by_cases h' : k₀ = k'
      · subst h'
        have : ¬ k = k₀ := fun hh => h hh.symm
        simp [this]
      · simp [h', ih]

@[simp] theorem alookup_aerase (k k' : String) (l : List (String × α)) :
    alookup k' (aerase k l) = if k' = k then none else alookup k' l := by
  induction l with
  | nil => simp [aerase, alookup]
  | cons e rest ih =>
    obtain ⟨k₀, v₀⟩ := e
    by_cases h : k₀ = k
    · subst h
      rw [show aerase k₀ ((k₀, v₀) :: rest) = aerase k₀ rest by simp [aerase], ih]
      by_cases h' : k' = k₀
      · simp [h']
      · have : ¬ k₀ = k' := fun hh => h' hh.symm
        simp [h', alookup, this]
    · rw [show aerase k ((k₀, v₀) :: rest) = (k₀, v₀) :: aerase k rest by simp [aerase, h]]
      by_cases h' : k₀ = k'
      · subst h'
        have : ¬ k₀ = k := h
        simp [alookup, this]
      · simp only [alookup, if_neg h', ih]

theorem mem_aupsert {e : String × α} {k : String} {v : α} {l : List (String × α)} :
    e ∈ aupsert k v l → e = (k, v) ∨ e ∈ l := by
  induction l with
  | nil => intro h; simpa [aupsert] using h
  | cons e₀ rest ih =>
    obtain ⟨k₀, v₀⟩ := e₀
    by_cases h : k₀ = k
    · subst h
      intro hmem
      simp only [aupsert, if_true, eq_self_iff_true, List.mem_cons] at hmem
      rcases hmem with h' | hmem
      · exact Or.inl h'
      · exact Or.inr (List.mem_cons_of_mem _ hmem)
    · intro hmem
      simp only [aupsert, if_neg h, List.mem_cons] at hmem
      rcases hmem with h' | hmem
      · exact Or.inr (by rw [h']; exact List.mem_cons_self _ _)
      · rcases ih hmem with h' | h'
        · exact Or.inl h'
        · exact Or.inr (List.mem_cons_of_mem _ h')

theorem mem_aerase {e : String × α} {k : String} {l : List (String × α)} :
    e ∈ aerase k l → e ∈ l := by
  induction l with
  | nil => intro h; simp [aerase] at h
  | cons e₀ rest ih =>
    obtain ⟨k₀, v₀⟩ := e₀
    by_cases h : k₀ = k
    · subst h
      intro hmem
      rw [show aerase k₀ ((k₀, v₀) :: rest) = aerase k₀ rest by simp [aerase]] at hmem
      exact List.mem_cons_of_mem _ (ih hmem)
    · intro hmem
      rw [show aerase k ((k₀, v₀) :: rest) = (k₀, v₀) :: aerase k rest by
            simp [aerase, h]] at hmem
      rcases List.mem_cons.mp hmem with rfl | hmem
      · exact List.mem_cons_self _ _
      · exact List.mem_cons_of_mem _ (ih hmem)

@[simp] theorem mem_hsInsert {u x : String} {l : List String} :
    u ∈ hsInsert x l ↔ u = x ∨ u ∈ l := by
  unfold hsInsert
  by_cases h : x ∈ l
  · simp only [if_pos h]
    constructor
    · exact Or.inr
    · rintro (rfl | hu)
      · exact h
      · exact hu
  · simp [if_neg h, List.mem_cons]

/-! ### Base64 lemmas -/

theorem b64Val_b64Char : ∀ v < 64, b64Val (b64Char v) = some v := by decide

theorem b64Char_ne_pad (v : Nat) : b64Char v ≠ '=' := by
  unfold b64Char
  by_cases h : v < 64
  · exact (by decide : ∀ w < 64, base64Alphabet.getD w '?' ≠ '=') v h
  · rw [List.getD_eq_default]
    · decide
    · have : base64Alphabet.length = 64 := by decide
      omega

theorem b64_decode_encode :
    ∀ (l : List Nat), (∀ b ∈ l, b < 256) →
      b64DecodeChars (b64EncodeBytes l) = some l
  | [] => fun _ => by simp [b64EncodeBytes, b64DecodeChars]
  | [a] => fun h => by
    have ha : a < 256 := h a (by simp)
    rw [show b64EncodeBytes [a] =
        [b64Char (a / 4), b64Char (a % 4 * 16), '=', '='] from rfl]
    unfold b64DecodeChars
    rw [if_pos (by simp), b64Val_b64Char _ (by omega), b64Val_b64Char _ (by omega)]
    simp only
    rw [if_pos (by omega)]
    congr 2
    omega
  | [a, b] => fun h => by
    have ha : a < 256 := h a (by simp)
    have hb : b < 256 := h b (by simp)
    rw [show b64EncodeBytes [a, b] =
        [b64Char (a / 4), b64Char (a % 4 * 16 + b / 16), b64Char (b % 16 * 4), '=']
      from rfl]
    unfold b64DecodeChars
    rw [if_neg (by simp [b64Char_ne_pad]), if_pos (by simp),
      b64Val_b64Char _ (by omega), b64Val_b64Char _ (by omega),
      b64Val_b64Char _ (by omega)]
    simp only
    rw [if_pos (by omega)]
    congr 3
    · omega
    · omega
  | a :: b :: c :: rest => fun h => by
    have ha : a < 256 := h a (by simp)
    have hb : b < 256 := h b (by simp)
    have hc : c < 256 := h c (by simp)
    have ih := b64_decode_encode rest (fun x hx => h x (by simp [hx]))
    rw [show b64EncodeBytes (a :: b :: c :: rest) =
        b64Char (a / 4) :: b64Char (a % 4 * 16 + b / 16) ::
          b64Char (b % 16 * 4 + c / 64) :: b64Char (c % 64) ::
          b64EncodeBytes rest from rfl]
    unfold b64DecodeChars
    rw [if_neg (by simp [b64Char_ne_pad]), if_neg (by simp [b64Char_ne_pad]),
      b64Val_b64Char _ (by omega), b64Val_b64Char _ (by omega),
      b64Val_b64Char _ (by omega), b64Val_b64Char _ (by omega), ih]
    simp only [Option.some.injEq]
    congr 3
    · omega
    · omega
    · omega

/-! ### Claim C1 -/

/-- C1: the station-pass predicate is symmetric under reversing the direction
flag and swapping the endpoints: for `prev ≠ next`,
`station_passed prev next s c cw` holds iff
`station_passed next prev s c (¬cw)` holds. -/
theorem station_passed_symm (prev next station c : ℚ) (cw : Bool)
    (_h : prev ≠ next) :
    station_passed prev next station c cw = true ↔
      station_passed next prev station c (!cw) = true := by
  have habs : ratAbs (prev - next) = ratAbs (next - prev) := by
    by_cases h1 : prev - next < 0 <;> by_cases h2 : next - prev < 0 <;>
      simp [ratAbs, h1, h2] <;> linarith
  cases cw <;> simp [station_passed, habs]

/-- Witness for C1 at `prev = 10`, `next = 20`, `station = 15`, `cw = true`. -/
theorem station_passed_symm_witness :
    (10 : ℚ) ≠ 20 ∧
      (station_passed 10 20 15 4096 true = true ↔
        station_passed 20 10 15 4096 (!true) = true) :=
  ⟨by decide, station_passed_symm 10 20 15 4096 true (by decide)⟩

/-! ### Claim C3 -/

/-- C3 (amended): `requires_signature` is exactly "begins with `client.` and
is neither `client.auth` nor `client.heartbeat`"; an envelope of such a type
whose signature is missing (which makes `verify_envelope` return `Ok false`)
or well-formed but failing strict verification draws `server.error`
`invalid_signature`, is not dispatched, and the loop continues; but an
envelope whose signature fails base64 decoding or is not 64 bytes makes
`verify_envelope` return `Err`, which terminates the session. -/
theorem requires_signature_and_gate :
    (∀ m : String, requires_signature m = true ↔
      (listIsPfxOf "client.".toList m.toList = true ∧
        m ≠ "client.auth" ∧ m ≠ "client.heartbeat")) ∧
    (∀ (P : Type) (serialize : SignableEnvelope P → List Nat)
        (verify_strict : List Nat → List Nat → Bool) (uid : String)
        (env : Envelope P),
      env.sig = none → verify_envelope serialize verify_strict env = .ok false) ∧
    (∀ (P : Type) (serialize : SignableEnvelope P → List Nat)
        (verify_strict : List Nat → List Nat → Bool) (uid : String)
        (env : Envelope P),
      requires_signature env.message_type = true →
      verify_envelope serialize verify_strict env = .ok false →
      signature_gate serialize verify_strict uid env =
        .continueWith
          [(uid, OutMsg.errorMsg "invalid_signature" "signature required")] false) ∧
    (∀ (P : Type) (serialize : SignableEnvelope P → List Nat)
        (verify_strict : List Nat → List Nat → Bool) (uid : String)
        (env : Envelope P) (e : String),
      requires_signature env.message_type = true →
      verify_envelope serialize verify_strict env = .error e →
      signature_gate serialize verify_strict uid env = .terminated) := by
  refine ⟨?_, ?_, ?_, ?_⟩
  · intro m
    by_cases h1 : m = "client.auth" ∨ m = "client.heartbeat"
    · rw [requires_signature, if_pos h1]
      rcases h1 with rfl | rfl <;> decide
    · rw [requires_signature, if_neg h1]
      push_neg at h1
      by_cases h2 : listIsPfxOf "client.".toList m.toList
      · simp [h2, h1.1, h1.2]
      · rw [if_neg h2]
        simp only [Bool.false_eq_true, false_iff]
        rintro ⟨hpf, -⟩
        exact h2 hpf
  · intro P serialize verify_strict uid env hsig
    unfold verify_envelope
    rw [hsig]
  · intro P serialize verify_strict uid env hreq hver
    unfold signature_gate
    rw [hreq, hver]
    simp
  · intro P serialize verify_strict uid env e hreq hver
    unfold signature_gate
    rw [hreq, hver]
    simp

/-- Counterexample to C3 as stated: a `client.move` envelope whose signature
is present but malformed (invalid base64, hence failing verification) does
NOT draw `invalid_signature` with the session kept open — the gate terminates
the session (`verify_envelope`'s `Err` propagates through `?`). -/
theorem signature_gate_closes_on_malformed_sig :
    signature_gate (P := String) (fun _ => []) (fun _ _ => true) "u_1"
        ⟨"client.move", "id-1", 0, some "%%%%", "p"⟩ = .terminated ∧
    signature_gate (P := String) (fun _ => []) (fun _ _ => true) "u_1"
        ⟨"client.move", "id-1", 0, some "%%%%", "p"⟩ ≠
      .continueWith
        [("u_1", OutMsg.errorMsg "invalid_signature" "signature required")] false := by
  constructor <;> decide

/-- Witness for C3 (amended) on a concrete unsigned `client.move` envelope. -/
theorem requires_signature_and_gate_witness :
    requires_signature "client.move" = true ∧
    verify_envelope (P := String) (fun _ => []) (fun _ _ => true)
        ⟨"client.move", "id-1", 0, none, "p"⟩ = .ok false ∧
    signature_gate (P := String) (fun _ => []) (fun _ _ => true) "u_1"
        ⟨"client.move", "id-1", 0, none, "p"⟩ =
      .continueWith
        [("u_1", OutMsg.errorMsg "invalid_signature" "signature required")] false :=
  ⟨by decide,
    requires_signature_and_gate.2.1 String (fun _ => []) (fun _ _ => true) "u_1"
      ⟨"client.move", "id-1", 0, none, "p"⟩ rfl,
    requires_signature_and_gate.2.2.1 String (fun _ => []) (fun _ _ => true) "u_1"
      ⟨"client.move", "id-1", 0, none, "p"⟩ (by decide)
      (requires_signature_and_gate.2.1 String (fun _ => []) (fun _ _ => true) "u_1"
        ⟨"client.move", "id-1", 0, none, "p"⟩ rfl)⟩

/-! ### Claim C4 -/

/-- C4: for every signing key (abstracted as the `dalek` pair
`sign`/`verify_strict` with its correctness, 64-byte-signature and byte-range
properties as hypotheses), message type, id, timestamp and payload,
`verify_envelope` accepts the envelope produced by `sign_envelope`; moreover
the verifier's reconstructed signable object — and hence its serialization,
serialization being a function of the value — is identical to the
originator's canonical form. -/
theorem verify_envelope_sign_envelope {P : Type}
    (serialize : SignableEnvelope P → List Nat) (sign : List Nat → List Nat)
    (verify_strict : List Nat → List Nat → Bool)
    (message_type id : String) (ts : Int) (payload : P)
    (hlen : ∀ m, (sign m).length = 64)
    (hbytes : ∀ m, ∀ b ∈ sign m, b < 256)
    (hok : ∀ m, verify_strict m (sign m) = true) :
    verify_envelope serialize verify_strict
        (sign_envelope serialize sign message_type id ts payload) =
      .ok true ∧
    signable_of (sign_envelope serialize sign message_type id ts payload) =
        ⟨message_type, id, ts, payload⟩ ∧
    serialize (signable_of (sign_envelope serialize sign message_type id ts payload)) =
        serialize ⟨message_type, id, ts, payload⟩ := by
  refine ⟨?_, rfl, rfl⟩
  show verify_envelope serialize verify_strict
    ⟨message_type, id, ts,
      some (base64_encode (sign (serialize ⟨message_type, id, ts, payload⟩))),
      payload⟩ = .ok true
  unfold verify_envelope base64_decode base64_encode
  simp only
  rw [show (String.mk (b64EncodeBytes
      (sign (serialize ⟨message_type, id, ts, payload⟩)))).toList =
      b64EncodeBytes (sign (serialize ⟨message_type, id, ts, payload⟩)) from rfl]
  rw [b64_decode_encode _ (hbytes _)]
  simp only
  rw [if_pos (hlen _)]
  exact congrArg Except.ok (hok (serialize ⟨message_type, id, ts, payload⟩))

/-- Witness for C4 at a concrete toy signature scheme and payload. -/
theorem verify_envelope_sign_envelope_witness :
    verify_envelope (P := String) (fun _ => [7]) (fun _ _ => true)
        (sign_envelope (fun _ => [7]) (fun _ => List.replicate 64 0)
          "client.move" "id-1" 5 "p") = .ok true ∧
    signable_of (sign_envelope (P := String) (fun _ => [7])
        (fun _ => List.replicate 64 0) "client.move" "id-1" 5 "p") =
      ⟨"client.move", "id-1", 5, "p"⟩ ∧
    (fun (_ : SignableEnvelope String) => [7])
        (signable_of (sign_envelope (fun _ => [7])
          (fun _ => List.replicate 64 0) "client.move" "id-1" 5 "p")) =
      (fun _ => [7]) (SignableEnvelope.mk "client.move" "id-1" 5 "p") :=
  verify_envelope_sign_envelope _ _ _ _ _ _ _
    (fun m => by simp)
    (fun m b hb => by rw [List.eq_of_mem_replicate hb]; decide)
    (fun m => rfl)

/-! ### Claim C5 -/

/-- C5: from the street at `(0, 1)`, `try_move Up` transitions to
`room/north:0` at `(16, 14)`, and — when the rate limit passes and room
access is allowed — the move handler emits `server.map_change` then
`server.room_info` for that room, followed by the nearby refreshes of the
street and of the room map (over the post-transition state). -/
theorem move_up_from_street_origin (now : Int) (user : UserState)
    (s : RelayState) (config : RelayConfig)
    (hpos : user.position = ⟨"street", 0, 1⟩)
    (hrate : ¬ (now - (alookup user.user_id s.last_move_ms).getD 0 <
      MOVE_INTERVAL_MS))
    (haccess : room_access_allowed
      (RelayState.get_or_create_room s "north:0" config.room_price_xmr).1
      user.pubkey = true) :
    try_move user.position .Up = .Transition ⟨"room/north:0", 16, 14⟩ ∧
    ∃ s' : RelayState,
      handle_move now .Up user s config =
        (s',
          [(user.user_id, OutMsg.mapChange "room/north:0" ⟨"room/north:0", 16, 14⟩),
           (user.user_id, OutMsg.roomInfo (mkServerRoomInfo
             (RelayState.get_or_create_room s "north:0" config.room_price_xmr).1))]
          ++ refresh_nearby_for_map s' "street"
          ++ refresh_nearby_for_map s' "room/north:0") ∧
      alookup user.user_id s'.users =
        (alookup user.user_id s.users).map
          (fun u => { u with position := ⟨"room/north:0", 16, 14⟩ }) := by
  have htm : try_move user.position .Up = .Transition ⟨"room/north:0", 16, 14⟩ := by
    rw [hpos]; decide
  refine ⟨htm, ?_⟩
  unfold handle_move
  rw [if_neg hrate]
  simp only [htm]
  simp only [hpos]
  rw [show parse_room_map_id "room/north:0" = some (.North, 0) from by decide]
  simp only
  rw [show room_id_for_door RoomSide.North 0 = "north:0" from by decide]
  have hrooms_eq :
      RelayState.get_or_create_room
        { s with last_move_ms := aupsert user.user_id now s.last_move_ms }
        "north:0" config.room_price_xmr =
      ((RelayState.get_or_create_room s "north:0" config.room_price_xmr).1,
        { (RelayState.get_or_create_room s "north:0" config.room_price_xmr).2 with
          last_move_ms := aupsert user.user_id now s.last_move_ms }) := by
    unfold RelayState.get_or_create_room
    cases alookup "north:0" s.rooms <;> rfl
  rw [hrooms_eq]
  simp only
  rw [if_neg (by simp [haccess])]
  have hsta : ¬ listIsPfxOf "station/".toList "room/north:0".toList = true := by
    decide
  rw [if_pos hsta]
  refine ⟨_, rfl, ?_⟩
  have husers : (RelayState.get_or_create_room s "north:0"
      config.room_price_xmr).2.users = s.users := by
    unfold RelayState.get_or_create_room
    cases alookup "north:0" s.rooms <;> rfl
  unfold RelayState.move_connected_user update_user_position
  simp only
  rw [show ({ (RelayState.get_or_create_room s "north:0"
        config.room_price_xmr).2 with
      last_move_ms := aupsert user.user_id now s.last_move_ms } : RelayState).users
    = s.users from husers]
  cases hu : alookup user.user_id s.users with
  | none =>
    simp [hu]
  | some entry =>
    simp [hu, alookup_aupsert]

/-- Witness for C5: a concrete one-user state standing at the street origin. -/
theorem move_up_from_street_origin_witness :
    (let user : UserState := ⟨"u_1", "pk1", none, ⟨"street", 0, 1⟩, none⟩
     let s : RelayState := ⟨2, [("u_1", user)], [("pk1", "u_1")], [], ["u_1"],
       [("street", ["u_1"])], [], [], [], []⟩
     let config : RelayConfig := ⟨"1.0", "1.0", "dev", ⟨.Bps, 100⟩⟩
     try_move user.position .Up = .Transition ⟨"room/north:0", 16, 14⟩ ∧
     ∃ s' : RelayState,
       handle_move 100 .Up user s config =
         (s',
           [("u_1", OutMsg.mapChange "room/north:0" ⟨"room/north:0", 16, 14⟩),
            ("u_1", OutMsg.roomInfo (mkServerRoomInfo
              (RelayState.get_or_create_room s "north:0" config.room_price_xmr).1))]
           ++ refresh_nearby_for_map s' "street"
           ++ refresh_nearby_for_map s' "room/north:0") ∧
       alookup "u_1" s'.users =
         (alookup "u_1" s.users).map
           (fun u => { u with position := ⟨"room/north:0", 16, 14⟩ })) :=
  move_up_from_street_origin 100 _ _ _ rfl (by decide) (by decide)

/-! ### Claim C6 -/

/-- `rider_entry` for an entry keyed by another user leaves the riders map
unchanged and every other user's stored record unchanged. -/
theorem rider_entry_other (updates : List TrainUpdate) (s : RelayState)
    (uid' : String) (ride' : TrainRide) :
    (rider_entry updates s uid' ride').1.riders = s.riders ∧
    ∀ v, v ≠ uid' → alookup v (rider_entry updates s uid' ride').1.users =
      alookup v s.users := by
  unfold rider_entry
  repeat' split
  all_goals try exact ⟨rfl, fun v hv => rfl⟩
  all_goals try simp only []
  repeat' split
  all_goals try exact ⟨rfl, fun v hv => rfl⟩
  all_goals try exact ⟨trivial, fun v hv => rfl⟩
  all_goals try exact ⟨rfl, trivial⟩
  all_goals try exact ⟨trivial, trivial⟩
  all_goals
    refine ⟨rfl, fun v hv => ?_⟩
    show alookup v (aupsert uid' _ s.users) = alookup v s.users
    rw [alookup_aupsert, if_neg (fun hh => hv hh.symm)]

/-- A rider-loop pass over entries keyed by other users keeps the riders map
and the given user's stored record. -/
theorem riders_loop_other (updates : List TrainUpdate) (uid : String) :
    ∀ (l : List (String × TrainRide)) (s : RelayState), (∀ e ∈ l, e.1 ≠ uid) →
      (riders_loop updates l s).1.riders = s.riders ∧
      alookup uid (riders_loop updates l s).1.users = alookup uid s.users := by
  intro l
  induction l with
  | nil =>
    intro s _
    exact ⟨rfl, rfl⟩
  | cons e rest ih =>
    intro s hkeys
    obtain ⟨uid', ride'⟩ := e
    have h₁ := rider_entry_other updates s uid' ride'
    have hne : uid ≠ uid' := fun hh =>
      hkeys (uid', ride') (List.mem_cons_self _ _) hh.symm
    have h₂ := ih (rider_entry updates s uid' ride').1
      (fun e' he' => hkeys e' (List.mem_cons_of_mem _ he'))
    exact ⟨h₂.1.trans h₁.1, h₂.2.trans (h₁.2 uid hne)⟩

/-- `riders_loop` splits over list append, threading the state. -/
theorem riders_loop_append (updates : List TrainUpdate) :
    ∀ (l₁ l₂ : List (String × TrainRide)) (s : RelayState),
      riders_loop updates (l₁ ++ l₂) s =
        ((riders_loop updates l₂ (riders_loop updates l₁ s).1).1,
         (riders_loop updates l₁ s).2.1 ++
           (riders_loop updates l₂ (riders_loop updates l₁ s).1).2.1,
         (riders_loop updates l₁ s).2.2 ++
           (riders_loop updates l₂ (riders_loop updates l₁ s).1).2.2) := by
  intro l₁
  induction l₁ with
  | nil =>
    intro l₂ s
    simp [riders_loop]
  | cons e rest ih =>
    intro l₂ s
    obtain ⟨uid', ride'⟩ := e
    simp only [List.cons_append, riders_loop, List.append_eq]
    rw [ih]
    simp [List.append_assoc]

/-- The removal fold of `handle_riders` never touches `users`. -/
theorem foldl_erase_users (l : List String) :
    ∀ (st : RelayState),
      (l.foldl (fun st u => { st with riders := aerase u st.riders }) st).users =
        st.users := by
  induction l with
  | nil =>
    intro st
    rfl
  | cons u rest ih =>
    intro st
    exact ih _

/-- After the removal fold, a ride listed in `to_remove` (or already absent)
is absent. -/
theorem foldl_erase_none (uid : String) :
    ∀ (l : List String) (st : RelayState),
      (uid ∈ l ∨ alookup uid st.riders = none) →
      alookup uid
        (l.foldl (fun st u => { st with riders := aerase u st.riders }) st).riders =
        none := by
  intro l
  induction l with
  | nil =>
    intro st h
    rcases h with h | h
    · cases h
    · exact h
  | cons u rest ih =>
    intro st h
    by_cases hu : uid = u
    · exact ih _ (Or.inr (by rw [alookup_aerase, if_pos hu]))
    · rcases h with h | h
      · rcases List.mem_cons.mp h with h' | h'
        · exact absurd h' hu
        · exact ih _ (Or.inl h')
      · exact ih _ (Or.inr (by rw [alookup_aerase, if_neg hu]; exact h))

/-- The per-entry effect of `rider_entry` on its own rider when the entry's
train passes the destination: the stored position becomes the station map at
the direction-chosen door tile, the riders map is untouched (removal comes
later), and the entry joins `to_remove`. -/
theorem rider_entry_hit (updates : List TrainUpdate) (s : RelayState)
    (uid : String) (ride : TrainRide) (u : TrainUpdate) (user : UserState)
    (hfind : updates.find? (fun t => t.id = ride.train_id) = some u)
    (huser : alookup uid s.users = some user)
    (hmap : user.position.map_id = train_map_id ride.train_id)
    (hpassed : station_passed u.prev u.next (ride.destination_x : ℚ)
      (STREET_CIRCUMFERENCE_TILES : ℚ) u.clockwise = true) :
    alookup uid (rider_entry updates s uid ride).1.users =
      some { user with position :=
        ⟨station_map_id ride.destination_x, 16, if u.clockwise then 14 else 1⟩ } ∧
    (rider_entry updates s uid ride).1.riders = s.riders ∧
    (rider_entry updates s uid ride).2.2 = true := by
  have hep : station_entry_position_for_street_y
      (if u.clockwise then STATION_DOOR_Y_BOTTOM else STATION_DOOR_Y_TOP) =
      (16, if u.clockwise then 14 else 1) := by
    cases u.clockwise <;> decide
  unfold rider_entry
  rw [hfind]
  simp only [huser, hmap]
  rw [if_neg (by simp), if_pos hpassed]
  simp only [hep]
  refine ⟨?_, ?_, ?_⟩
  · simp [RelayState.move_connected_user, alookup_aupsert]
  · first
    | rfl
    | trivial
  · first
    | rfl
    | trivial

/-- C6: any rider of the tick's snapshot (an arbitrary riders map, split
around the rider's entry; keys are distinct as in a `HashMap`) whose train
passes `destination_x` is moved by `handle_riders` to
`station/<destination_x>`, at the bottom-door interior tile `(16, 14)` when
the train runs clockwise and the top-door interior tile `(16, 1)` when it
runs counter-clockwise, and the ride is removed; the rider is on the map of
the ride's train, as the rider invariant guarantees. -/
theorem rider_disembark_tile (s : RelayState) (updates : List TrainUpdate)
    (uid : String) (ride : TrainRide) (u : TrainUpdate) (user : UserState)
    (l₁ l₂ : List (String × TrainRide))
    (hriders : s.riders = l₁ ++ (uid, ride) :: l₂)
    (hkeys₁ : ∀ e ∈ l₁, e.1 ≠ uid)
    (hkeys₂ : ∀ e ∈ l₂, e.1 ≠ uid)
    (hfind : updates.find? (fun t => t.id = ride.train_id) = some u)
    (huser : alookup uid s.users = some user)
    (hmap : user.position.map_id = train_map_id ride.train_id)
    (hpassed : station_passed u.prev u.next (ride.destination_x : ℚ)
      (STREET_CIRCUMFERENCE_TILES : ℚ) u.clockwise = true) :
    alookup uid (handle_riders s updates).1.users =
      some { user with position :=
        ⟨station_map_id ride.destination_x, 16, if u.clockwise then 14 else 1⟩ } ∧
    alookup uid (handle_riders s updates).1.riders = none := by
  have h₁ := riders_loop_other updates uid l₁ s hkeys₁
  have hu₁ : alookup uid (riders_loop updates l₁ s).1.users = some user :=
    h₁.2.trans huser
  have hhit := rider_entry_hit updates (riders_loop updates l₁ s).1 uid ride u user
    hfind hu₁ hmap hpassed
  have h₂ := riders_loop_other updates uid l₂
    (rider_entry updates (riders_loop updates l₁ s).1 uid ride).1 hkeys₂
  unfold handle_riders
  rw [hriders, riders_loop_append]
  simp only [riders_loop]
  constructor
  · rw [foldl_erase_users]
    rw [h₂.2, hhit.1]
  · refine foldl_erase_none uid _ _ (Or.inl ?_)
    rw [hhit.2.2]
    simp

/-- Witness for C6: one clockwise train passing `east = 1024`, two riders in
the snapshot; the theorem is applied to the second entry. -/
theorem rider_disembark_tile_witness :
    (let user : UserState := ⟨"u_1", "pk1", none, ⟨"train/0", 16, 8⟩, none⟩
     let user2 : UserState := ⟨"u_2", "pk2", none, ⟨"train/0", 17, 8⟩, none⟩
     let ride : TrainRide := ⟨0, 1024⟩
     let s : RelayState := ⟨3, [("u_1", user), ("u_2", user2)],
       [("pk1", "u_1"), ("pk2", "u_2")], [], ["u_1", "u_2"],
       [("train/0", ["u_1", "u_2"])], [], [], [("u_2", ride), ("u_1", ride)], []⟩
     let updates : List TrainUpdate := [⟨0, 1000, 1100, true⟩]
     alookup "u_1" (handle_riders s updates).1.users =
       some { user with position :=
         ⟨station_map_id ride.destination_x, 16,
           if (true : Bool) then 14 else 1⟩ } ∧
     alookup "u_1" (handle_riders s updates).1.riders = none) :=
  rider_disembark_tile _ _ _ _ ⟨0, 1000, 1100, true⟩ _
    [("u_2", ⟨0, 1024⟩)] [] rfl (by decide) (by decide) (by decide) (by decide)
    (by decide) (by decide)

/-! ### Claim C7 -/

theorem collect_nearby_id_ne (user : UserState) :
    ∀ (lst : List UserState), ∀ nu ∈ collect_nearby_from_list user lst,
      nu.id ≠ user.user_id := by
  intro lst
  induction lst with
  | nil => simp [collect_nearby_from_list]
  | cons other rest ih =>
    intro nu hnu
    unfold collect_nearby_from_list at hnu
    by_cases h : other.user_id = user.user_id
    · rw [if_pos h] at hnu
      exact ih nu hnu
    · rw [if_neg h] at hnu
      rcases List.mem_cons.mp hnu with rfl | hnu
      · exact h
      · exact ih nu hnu

/-- C7 (amended): every `server.nearby` sent by a proximity refresh excludes
the recipient from its users list, and a refresh of a map with no connected
users sends nothing; but a sole connected user in a map does receive a
`server.nearby` with an empty users list (the guard only skips a refresh when
the map's user list itself is empty). -/
theorem refresh_nearby_excludes_recipient :
    (∀ (s : RelayState) (map_id r : String) (users : List NearbyUser),
      (r, OutMsg.nearby users) ∈ refresh_nearby_for_map s map_id →
      ∀ nu ∈ users, nu.id ≠ r) ∧
    (∀ (s : RelayState) (map_id : String),
      connected_users_in_map s map_id = [] →
      refresh_nearby_for_map s map_id = []) ∧
    (∀ (s : RelayState) (map_id : String) (u : UserState),
      connected_users_in_map s map_id = [u] → u.user_id ∈ s.clients →
      refresh_nearby_for_map s map_id = [(u.user_id, OutMsg.nearby [])]) := by
  refine ⟨?_, ?_, ?_⟩
  · intro s map_id r users hmem nu hnu
    unfold refresh_nearby_for_map at hmem
    by_cases he : (connected_users_in_map s map_id).isEmpty
    · rw [if_pos he] at hmem
      simp at hmem
    · rw [if_neg he] at hmem
      rcases List.mem_filterMap.mp hmem with ⟨user, _, hf⟩
      by_cases hc : user.user_id ∈ s.clients
      · rw [if_pos hc] at hf
        simp only [Option.some.injEq, Prod.mk.injEq, OutMsg.nearby.injEq] at hf
        obtain ⟨h1, h2⟩ := hf
        subst h1
        subst h2
        exact collect_nearby_id_ne user _ nu hnu
      · rw [if_neg hc] at hf
        cases hf
  · intro s map_id h
    unfold refresh_nearby_for_map
    rw [h]
    rfl
  · intro s map_id u h hc
    unfold refresh_nearby_for_map
    rw [h]
    simp [hc, collect_nearby_from_list]

/-- Counterexample to C7 as stated: a user alone in a map receives a
`server.nearby` whose users list is empty. -/
theorem nearby_empty_sent_to_lone_user :
    refresh_nearby_for_map
      ⟨2, [("u_1", ⟨"u_1", "pk1", none, ⟨"street", 0, 1⟩, none⟩)],
        [("pk1", "u_1")], [], ["u_1"], [("street", ["u_1"])], [], [], [], []⟩
      "street" = [("u_1", OutMsg.nearby [])] := by
  decide

/-- Witness for C7 (amended) on a concrete two-user street map. -/
theorem refresh_nearby_excludes_recipient_witness :
    (("u_1", OutMsg.nearby [⟨"u_2", none, 1, 1, none⟩]) ∈
      refresh_nearby_for_map
        ⟨3, [("u_1", ⟨"u_1", "pk1", none, ⟨"street", 0, 1⟩, none⟩),
             ("u_2", ⟨"u_2", "pk2", none, ⟨"street", 1, 1⟩, none⟩)],
          [("pk1", "u_1"), ("pk2", "u_2")], [], ["u_1", "u_2"],
          [("street", ["u_1", "u_2"])], [], [], [], []⟩ "street") ∧
    (∀ nu ∈ [(⟨"u_2", none, 1, 1, none⟩ : NearbyUser)], nu.id ≠ "u_1") :=
  ⟨by decide,
    refresh_nearby_excludes_recipient.1
      ⟨3, [("u_1", ⟨"u_1", "pk1", none, ⟨"street", 0, 1⟩, none⟩),
           ("u_2", ⟨"u_2", "pk2", none, ⟨"street", 1, 1⟩, none⟩)],
        [("pk1", "u_1"), ("pk2", "u_2")], [], ["u_1", "u_2"],
        [("street", ["u_1", "u_2"])], [], [], [], []⟩
      "street" "u_1" [⟨"u_2", none, 1, 1, none⟩] (by decide)⟩

/-! ### Claim C8 -/

theorem refresh_nearby_msgs (s : RelayState) (map_id d : String) (m : OutMsg)
    (hmem : (d, m) ∈ refresh_nearby_for_map s map_id) :
    ∃ us, m = OutMsg.nearby us := by
  unfold refresh_nearby_for_map at hmem
  by_cases he : (connected_users_in_map s map_id).isEmpty
  · rw [if_pos he] at hmem
    simp at hmem
  · rw [if_neg he] at hmem
    rcases List.mem_filterMap.mp hmem with ⟨user, _, hf⟩
    by_cases hc : user.user_id ∈ s.clients
    · rw [if_pos hc] at hf
      simp only [Option.some.injEq, Prod.mk.injEq] at hf
      exact ⟨_, hf.2.symm⟩
    · rw [if_neg hc] at hf
      cases hf

/-- C8 (amended): every event emitted by `handle_pay`, `handle_buy`,
`handle_claim_name` and `handle_faucet` is addressed to the acting caller
only — in particular the credited pay recipient and the bought-from owner
receive no message, hence no balance notice; the auth-time starting credit
emits no `server.notice` at all; and on the success path of `pay` the caller
receives `server.tx_update` followed by a notice that is exactly
`"balance: <value> XMR"`. -/
theorem balance_notice_only_to_caller :
    (∀ (args : List String) (user : UserState) (s : RelayState)
        (w : MockWallet) (config : RelayConfig) (d : String) (m : OutMsg),
      (d, m) ∈ (handle_pay args user s w config).2 → d = user.user_id) ∧
    (∀ (tx_uuid : String) (user : UserState) (s : RelayState) (w : MockWallet)
        (config : RelayConfig) (d : String) (m : OutMsg),
      (d, m) ∈ (handle_buy tx_uuid user s w config).2.2 → d = user.user_id) ∧
    (∀ (args : List String) (user : UserState) (s : RelayState)
        (w : MockWallet) (config : RelayConfig) (d : String) (m : OutMsg),
      (d, m) ∈ (handle_claim_name args user s w config).2.2 → d = user.user_id) ∧
    (∀ (args : List String) (user : UserState) (w : MockWallet) (d : String)
        (m : OutMsg),
      (d, m) ∈ (handle_faucet args user w).2 → d = user.user_id) ∧
    (∀ (s : RelayState) (w : MockWallet) (pubkey : String)
        (x : Option String) (sid d t : String),
      (d, OutMsg.notice t) ∈ (auth_register s w pubkey x sid).2.2.1 → False) ∧
    (∀ (recipient : UserState) (target amount : String) (rest : List String)
        (user : UserState) (s : RelayState) (w : MockWallet)
        (config : RelayConfig) (tid : String) (w1 : MockWallet) (tid2 : String)
        (w2 : MockWallet),
      find_user_by_name_or_id s target = some recipient →
      wallet_send w user.pubkey recipient.pubkey amount "0" = .ok (tid, w1) →
      wallet_send w1 user.pubkey config.dev_wallet_pubkey
        (compute_fee amount config.dev_fee) "0" = .ok (tid2, w2) →
      handle_pay (target :: amount :: rest) user s w config =
        (w2, [(user.user_id, OutMsg.txUpdate tid "pending" 0),
              (user.user_id, OutMsg.notice
                ("balance: " ++ MockWallet.get_balance w2 user.pubkey ++ " XMR"))])) := by
  refine ⟨?_, ?_, ?_, ?_, ?_, ?_⟩
  · intro args user s w config d m hmem
    unfold handle_pay at hmem
    repeat' split at hmem
    all_goals simp only [] at hmem
    repeat' split at hmem
    all_goals simp [handle_balance] at hmem
    all_goals tauto
  · intro tx_uuid user s w config d m hmem
    unfold handle_buy at hmem
    repeat' split at hmem
    all_goals simp only [] at hmem
    repeat' split at hmem
    all_goals simp [handle_balance] at hmem
    all_goals tauto
  · intro args user s w config d m hmem
    unfold handle_claim_name at hmem
    repeat' split at hmem
    all_goals simp only [] at hmem
    repeat' split at hmem
    all_goals simp [handle_balance] at hmem
    all_goals tauto
  · intro args user w d m hmem
    unfold handle_faucet at hmem
    simp [handle_balance] at hmem
    tauto
  · intro s w pubkey x sid d t hmem
    unfold auth_register at hmem
    repeat' split at hmem
    all_goals simp only [] at hmem
    repeat' split at hmem
    all_goals simp at hmem
    all_goals rcases refresh_nearby_msgs _ _ _ _ hmem with ⟨us, h⟩
    all_goals cases h
  · intro recipient target amount rest user s w config tid w1 tid2 w2 hfind h1 h2
    unfold handle_pay
    simp only []
    rw [hfind]
    simp only []
    rw [h1]
    simp only []
    rw [h2]
    simp [handle_balance]

/-- Counterexample to C8 as stated: a successful `pay` credits the recipient
(`pk2`'s balance becomes 1) yet emits events addressed only to the payer —
the credited recipient receives no message, hence no balance notice. -/
theorem pay_recipient_gets_no_notice :
    (handle_pay ["u_2", "1.0"]
        ⟨"u_1", "pk1", none, ⟨"street", 0, 1⟩, none⟩
        ⟨3, [("u_1", ⟨"u_1", "pk1", none, ⟨"street", 0, 1⟩, none⟩),
             ("u_2", ⟨"u_2", "pk2", none, ⟨"street", 1, 1⟩, none⟩)],
          [("pk1", "u_1"), ("pk2", "u_2")], [], ["u_1", "u_2"],
          [("street", ["u_1", "u_2"])], [], [], [], []⟩
        ⟨[("pk1", 10)], [], 0⟩
        ⟨"1.0", "1.0", "dev", ⟨.Bps, 100⟩⟩).2 =
      [("u_1", OutMsg.txUpdate "tx_0" "pending" 0),
       ("u_1", OutMsg.notice "balance: 8.99000000 XMR")] ∧
    alookup "pk2"
      (handle_pay ["u_2", "1.0"]
        ⟨"u_1", "pk1", none, ⟨"street", 0, 1⟩, none⟩
        ⟨3, [("u_1", ⟨"u_1", "pk1", none, ⟨"street", 0, 1⟩, none⟩),
             ("u_2", ⟨"u_2", "pk2", none, ⟨"street", 1, 1⟩, none⟩)],
          [("pk1", "u_1"), ("pk2", "u_2")], [], ["u_1", "u_2"],
          [("street", ["u_1", "u_2"])], [], [], [], []⟩
        ⟨[("pk1", 10)], [], 0⟩
        ⟨"1.0", "1.0", "dev", ⟨.Bps, 100⟩⟩).1.balances = some 1 := by
  constructor <;> decide

/-- Witness for C8 (amended): the success-path conjunct applied at the same
concrete pay. -/
theorem balance_notice_only_to_caller_witness :
    (find_user_by_name_or_id
        ⟨3, [("u_1", ⟨"u_1", "pk1", none, ⟨"street", 0, 1⟩, none⟩),
             ("u_2", ⟨"u_2", "pk2", none, ⟨"street", 1, 1⟩, none⟩)],
          [("pk1", "u_1"), ("pk2", "u_2")], [], ["u_1", "u_2"],
          [("street", ["u_1", "u_2"])], [], [], [], []⟩ "u_2" =
      some ⟨"u_2", "pk2", none, ⟨"street", 1, 1⟩, none⟩) ∧
    (handle_pay ["u_2", "1.0"]
        ⟨"u_1", "pk1", none, ⟨"street", 0, 1⟩, none⟩
        ⟨3, [("u_1", ⟨"u_1", "pk1", none, ⟨"street", 0, 1⟩, none⟩),
             ("u_2", ⟨"u_2", "pk2", none, ⟨"street", 1, 1⟩, none⟩)],
          [("pk1", "u_1"), ("pk2", "u_2")], [], ["u_1", "u_2"],
          [("street", ["u_1", "u_2"])], [], [], [], []⟩
        ⟨[("pk1", 10)], [], 0⟩
        ⟨"1.0", "1.0", "dev", ⟨.Bps, 100⟩⟩ =
      (⟨[("pk1", (899 : ℚ)/100), ("pk2", 1), ("dev", (1 : ℚ)/100)],
          [("tx_0", ⟨"tx_0", .Pending, 0⟩), ("tx_1", ⟨"tx_1", .Pending, 0⟩)], 2⟩,
        [("u_1", OutMsg.txUpdate "tx_0" "pending" 0),
         ("u_1", OutMsg.notice
           ("balance: " ++ MockWallet.get_balance
             ⟨[("pk1", (899 : ℚ)/100), ("pk2", 1), ("dev", (1 : ℚ)/100)],
              [("tx_0", ⟨"tx_0", .Pending, 0⟩), ("tx_1", ⟨"tx_1", .Pending, 0⟩)], 2⟩
             "pk1" ++ " XMR"))])) :=
  ⟨by decide,
    balance_notice_only_to_caller.2.2.2.2.2
      ⟨"u_2", "pk2", none, ⟨"street", 1, 1⟩, none⟩ "u_2" "1.0" []
      ⟨"u_1", "pk1", none, ⟨"street", 0, 1⟩, none⟩
      ⟨3, [("u_1", ⟨"u_1", "pk1", none, ⟨"street", 0, 1⟩, none⟩),
           ("u_2", ⟨"u_2", "pk2", none, ⟨"street", 1, 1⟩, none⟩)],
        [("pk1", "u_1"), ("pk2", "u_2")], [], ["u_1", "u_2"],
        [("street", ["u_1", "u_2"])], [], [], [], []⟩
      ⟨[("pk1", 10)], [], 0⟩ ⟨"1.0", "1.0", "dev", ⟨.Bps, 100⟩⟩
      "tx_0"
      ⟨[("pk1", 9), ("pk2", 1)], [("tx_0", ⟨"tx_0", .Pending, 0⟩)], 1⟩
      "tx_1"
      ⟨[("pk1", (899 : ℚ)/100), ("pk2", 1), ("dev", (1 : ℚ)/100)],
        [("tx_0", ⟨"tx_0", .Pending, 0⟩), ("tx_1", ⟨"tx_1", .Pending, 0⟩)], 2⟩
      (by decide) (by rfl) (by rfl)⟩

/-! ### Claim C9 -/

theorem in_box_self (x y w h : Int) (hw : 0 < w) (hh : 0 < h) :
    in_box x y x y w h = true := by
  unfold in_box
  simp only [decide_eq_true_eq]
  omega

theorem sender_mem_users_in_map (user : UserState) (s : RelayState)
    (hpres : PresenceOK s.users s.clients s.connected_users_by_map)
    (hc : user.user_id ∈ s.clients)
    (hu : alookup user.user_id s.users = some user) :
    user ∈ connected_users_in_map s user.position.map_id := by
  unfold connected_users_in_map
  exact List.mem_filterMap.mpr
    ⟨user.user_id,
      (hpres user.user_id user.position.map_id).mpr ⟨hc, user, hu, rfl⟩, hu⟩

/-- C9: a chat that passes validation always includes the connected sender
among its recipients, so the recipient list is non-empty and the
"no recipients" notice is unreachable for such senders. -/
theorem chat_sender_in_recipients (payload : ClientChat) (user : UserState)
    (s : RelayState) (recipients : List String)
    (hwf : StateWF s)
    (hc : user.user_id ∈ s.clients)
    (hu : alookup user.user_id s.users = some user)
    (hok : chat_recipients payload user s = .ok recipients) :
    user.user_id ∈ recipients ∧ recipients ≠ [] ∧
      (user.user_id, OutMsg.notice "no recipients") ∉ handle_chat payload user s := by
  have hmem_map : user ∈ connected_users_in_map s user.position.map_id :=
    sender_mem_users_in_map user s hwf.1 hc hu
  have hmem : user.user_id ∈ recipients := by
    unfold chat_recipients at hok
    repeat' split at hok
    all_goals simp only [] at hok
    repeat' split at hok
    all_goals cases hok
    all_goals first
    | exact List.mem_append.mpr (Or.inl (List.mem_singleton.mpr rfl))
    | exact List.mem_map.mpr ⟨user, hmem_map, rfl⟩
    | (refine List.mem_filterMap.mpr ⟨user, hmem_map, ?_⟩
       have hib : in_box user.position.x user.position.y user.position.x
           user.position.y LOCAL_CHAT_WIDTH LOCAL_CHAT_HEIGHT = true :=
         in_box_self _ _ _ _ (by decide) (by decide)
       simp_all [hib])
  refine ⟨hmem, fun hnil => by simp [hnil] at hmem, ?_⟩
  intro hcontra
  unfold handle_chat at hcontra
  rw [hok] at hcontra
  simp only [] at hcontra
  rcases List.mem_append.mp hcontra with hL | hR
  · rcases List.mem_filterMap.mp hL with ⟨rid, _, hf⟩
    by_cases hrc : rid ∈ s.clients
    · rw [if_pos hrc] at hf
      simp at hf
    · rw [if_neg hrc] at hf
      cases hf
  · rw [if_neg (by simp [List.isEmpty_iff]; intro h; simp [h] at hmem)] at hR
    cases hR

/-- Witness for C9: a lone user whispering to themselves (validation passes,
the sender is the sole recipient). -/
theorem chat_sender_in_recipients_witness :
    (StateWF ⟨2, [("u_1", ⟨"u_1", "pk1", none, ⟨"street", 0, 1⟩, none⟩)],
        [("pk1", "u_1")], [], ["u_1"], [("street", ["u_1"])], [], [], [], []⟩ ∧
      chat_recipients ⟨some .Whisper, "hi", some "u_1", some ⟨"a", "n", "c", some "sk"⟩⟩
        ⟨"u_1", "pk1", none, ⟨"street", 0, 1⟩, none⟩
        ⟨2, [("u_1", ⟨"u_1", "pk1", none, ⟨"street", 0, 1⟩, none⟩)],
          [("pk1", "u_1")], [], ["u_1"], [("street", ["u_1"])], [], [], [], []⟩ =
        .ok ["u_1"]) ∧
    ("u_1" ∈ ["u_1"] ∧ (["u_1"] : List String) ≠ [] ∧
      ("u_1", OutMsg.notice "no recipients") ∉
        handle_chat ⟨some .Whisper, "hi", some "u_1", some ⟨"a", "n", "c", some "sk"⟩⟩
          ⟨"u_1", "pk1", none, ⟨"street", 0, 1⟩, none⟩
          ⟨2, [("u_1", ⟨"u_1", "pk1", none, ⟨"street", 0, 1⟩, none⟩)],
            [("pk1", "u_1")], [], ["u_1"], [("street", ["u_1"])], [], [], [], []⟩) := by
  have hwf : StateWF ⟨2, [("u_1", ⟨"u_1", "pk1", none, ⟨"street", 0, 1⟩, none⟩)],
      [("pk1", "u_1")], [], ["u_1"], [("street", ["u_1"])], [], [], [], []⟩ := by
    refine ⟨?_, ?_, by simp [TicketsOK]⟩
    · intro u m
      by_cases hm : "street" = m <;> by_cases hu1 : "u_1" = u <;>
        simp_all [plistGet, alookup] <;> tauto
    · intro k st h
      simp only [alookup] at h
      by_cases hk : "u_1" = k
      · rw [if_pos hk] at h
        simp only [Option.some.injEq] at h
        subst h
        exact hk
      · rw [if_neg hk] at h
        cases h
  refine ⟨⟨hwf, by rfl⟩, ?_⟩
  exact chat_sender_in_recipients
    ⟨some .Whisper, "hi", some "u_1", some ⟨"a", "n", "c", some "sk"⟩⟩
    ⟨"u_1", "pk1", none, ⟨"street", 0, 1⟩, none⟩
    ⟨2, [("u_1", ⟨"u_1", "pk1", none, ⟨"street", 0, 1⟩, none⟩)],
      [("pk1", "u_1")], [], ["u_1"], [("street", ["u_1"])], [], [], [], []⟩
    ["u_1"] hwf (by decide) (by decide) (by rfl)

/-! ### Claim C10 -/

/-- C10: when the presented pubkey resolves to an existing user and the auth
payload carries an `x25519_pubkey`, the stored record's `x25519_pubkey` is
overwritten before the duplicate-session check; an attempt then rejected with
`already_connected` (session closed) has still mutated the stored user. -/
theorem auth_x25519_overwritten_before_reject (s : RelayState) (w : MockWallet)
    (pubkey uid k sid : String) (u : UserState)
    (hpk : alookup pubkey s.users_by_pubkey = some uid)
    (hu : alookup uid s.users = some u)
    (huid : u.user_id = uid)
    (hconn : uid ∈ s.clients) :
    (auth_register s w pubkey (some k) sid).2.2.2 = true ∧
    (auth_register s w pubkey (some k) sid).2.2.1 =
      [(uid, OutMsg.errorMsg "already_connected" "user already connected")] ∧
    alookup uid (auth_register s w pubkey (some k) sid).1.users =
      some { u with x25519_pubkey := some k } := by
  unfold auth_register
  rw [hpk]
  simp only []
  rw [hu]
  simp only [huid]
  rw [hu]
  simp only []
  rw [if_pos hconn]
  refine ⟨rfl, rfl, ?_⟩
  simp [alookup_aupsert]
  exact huid

/-- Witness for C10: a connected user re-authenticating with a new
key-exchange key. -/
theorem auth_x25519_overwritten_before_reject_witness :
    ((auth_register
        ⟨2, [("u_1", ⟨"u_1", "pk1", none, ⟨"street", 0, 1⟩, none⟩)],
          [("pk1", "u_1")], [], ["u_1"], [("street", ["u_1"])], [], [], [], []⟩
        ⟨[], [], 0⟩ "pk1" (some "xk-new") "sid").2.2.2 = true ∧
    (auth_register
        ⟨2, [("u_1", ⟨"u_1", "pk1", none, ⟨"street", 0, 1⟩, none⟩)],
          [("pk1", "u_1")], [], ["u_1"], [("street", ["u_1"])], [], [], [], []⟩
        ⟨[], [], 0⟩ "pk1" (some "xk-new") "sid").2.2.1 =
      [("u_1", OutMsg.errorMsg "already_connected" "user already connected")] ∧
    alookup "u_1" (auth_register
        ⟨2, [("u_1", ⟨"u_1", "pk1", none, ⟨"street", 0, 1⟩, none⟩)],
          [("pk1", "u_1")], [], ["u_1"], [("street", ["u_1"])], [], [], [], []⟩
        ⟨[], [], 0⟩ "pk1" (some "xk-new") "sid").1.users =
      some ⟨"u_1", "pk1", none, ⟨"street", 0, 1⟩, some "xk-new"⟩) :=
  auth_x25519_overwritten_before_reject _ _ "pk1" "u_1" "xk-new" "sid"
    ⟨"u_1", "pk1", none, ⟨"street", 0, 1⟩, none⟩
    (by decide) (by decide) rfl (by decide)

/-! ### C2: the presence invariant

The invariant of the claim is proved from the inductive strengthening
`StateWF`; the lemmas below characterise the presence primitives of
`state.rs` and show each mutating handler preserves `StateWF`. -/

theorem mem_aerase_ne {e : String × α} {k : String} {l : List (String × α)}
    (h : e ∈ aerase k l) : e.1 ≠ k := by
  induction l with
  | nil => simp [aerase] at h
  | cons e₀ rest ih =>
    obtain ⟨k₀, v₀⟩ := e₀
    by_cases hk : k₀ = k
    · subst hk
      rw [show aerase k₀ ((k₀, v₀) :: rest) = aerase k₀ rest by simp [aerase]] at h
      exact ih h
    · rw [show aerase k ((k₀, v₀) :: rest) = (k₀, v₀) :: aerase k rest by
            simp [aerase, hk]] at h
      rcases List.mem_cons.mp h with rfl | h
      · exact hk
      · exact ih h

theorem plistGet_presenceAdd (p : List (String × List String)) (uid m m' : String) :
    plistGet (presenceAdd p uid m) m' =
      if m' = m then hsInsert uid (plistGet p m) else plistGet p m' := by
  unfold presenceAdd plistGet
  rw [alookup_aupsert]
  by_cases h : m = m'
  · subst h; simp
  · rw [if_neg h, if_neg (fun hh => h hh.symm)]

theorem plistGet_presenceRemove (p : List (String × List String)) (uid m m' : String) :
    plistGet (presenceRemove p uid m) m' =
      if m' = m then (plistGet p m).filter (fun x => x ≠ uid)
      else plistGet p m' := by
  unfold presenceRemove
  cases halo : alookup m p with
  | none =>
    simp only []
    by_cases h : m' = m
    · subst h
      unfold plistGet
      rw [halo]
      simp
    · rw [if_neg h]
  | some entry =>
    simp only []
    by_cases hemp : (entry.filter (fun x => x ≠ uid)).isEmpty
    · rw [if_pos hemp]
      have hnil : entry.filter (fun x => x ≠ uid) = [] := List.isEmpty_iff.mp hemp
      by_cases h : m' = m
      · subst h
        unfold plistGet
        rw [alookup_aerase, if_pos rfl, halo, if_pos rfl]
        simp only [Option.getD_none, Option.getD_some]
        exact hnil.symm
      · unfold plistGet
        rw [alookup_aerase, if_neg h, if_neg h]
    · rw [if_neg hemp]
      by_cases h : m' = m
      · subst h
        unfold plistGet
        rw [alookup_aupsert, if_pos rfl, halo, if_pos rfl]
        simp
      · unfold plistGet
        rw [alookup_aupsert, if_neg (fun hh => h hh.symm), if_neg h]

theorem mem_presenceAdd {p : List (String × List String)} {uid m u m' : String} :
    u ∈ plistGet (presenceAdd p uid m) m' ↔
      (m' = m ∧ u = uid) ∨ u ∈ plistGet p m' := by
  rw [plistGet_presenceAdd]
  by_cases h : m' = m
  · subst h; simp [mem_hsInsert]
  · simp [h]

theorem mem_presenceRemove {p : List (String × List String)} {uid m u m' : String} :
    u ∈ plistGet (presenceRemove p uid m) m' ↔
      u ∈ plistGet p m' ∧ ¬(m' = m ∧ u = uid) := by
  rw [plistGet_presenceRemove]
  by_cases h : m' = m
  · subst h; simp [List.mem_filter]
  · simp [h]

theorem mem_presenceMove {p : List (String × List String)}
    {uid from_map to_map u m' : String} :
    u ∈ plistGet (presenceMove p uid from_map to_map) m' ↔
      (if from_map = to_map then u ∈ plistGet p m'
       else ((m' = to_map ∧ u = uid) ∨
         (u ∈ plistGet p m' ∧ ¬(m' = from_map ∧ u = uid)))) := by
  unfold presenceMove
  by_cases h : from_map = to_map
  · simp [h]
  · rw [if_neg h, if_neg h, mem_presenceAdd, mem_presenceRemove]

theorem try_move_moved_map (position : Position) (dir : Direction) (pos : Position)
    (h : try_move position dir = .Moved pos) : pos.map_id = position.map_id := by
  unfold try_move move_on_street move_in_room move_in_station move_in_train at h
  repeat' split at h
  all_goals try simp only [] at h
  repeat' split at h
  all_goals cases h
  all_goals rfl

theorem presenceOK_aupsert_same_map {users : List (String × UserState)}
    {clients : List String} {presence : List (String × List String)}
    (h : PresenceOK users clients presence) {uid : String} {user user' : UserState}
    (hu : alookup uid users = some user)
    (hm : user'.position.map_id = user.position.map_id) :
    PresenceOK (aupsert uid user' users) clients presence := by
  intro v m
  rw [h v m]
  constructor
  · rintro ⟨hvc, st, hst, hstm⟩
    by_cases hv : v = uid
    · subst hv
      refine ⟨hvc, user', ?_, ?_⟩
      · rw [alookup_aupsert, if_pos rfl]
      · rw [hu] at hst
        cases hst
        exact hm.trans hstm
    · refine ⟨hvc, st, ?_, hstm⟩
      rw [alookup_aupsert, if_neg (fun hh => hv hh.symm)]
      exact hst
  · rintro ⟨hvc, st, hst, hstm⟩
    rw [alookup_aupsert] at hst
    by_cases hv : uid = v
    · rw [if_pos hv] at hst
      cases hst
      subst hv
      exact ⟨hvc, user, hu, hm.symm.trans hstm⟩
    · rw [if_neg hv] at hst
      exact ⟨hvc, st, hst, hstm⟩

theorem presenceOK_aupsert_unconnected {users : List (String × UserState)}
    {clients : List String} {presence : List (String × List String)}
    (h : PresenceOK users clients presence) {uid : String} (hnc : uid ∉ clients)
    (user' : UserState) :
    PresenceOK (aupsert uid user' users) clients presence := by
  intro v m
  rw [h v m]
  constructor
  · rintro ⟨hvc, st, hst, hstm⟩
    have hv : ¬ uid = v := fun hh => hnc (hh ▸ hvc)
    refine ⟨hvc, st, ?_, hstm⟩
    rw [alookup_aupsert, if_neg hv]
    exact hst
  · rintro ⟨hvc, st, hst, hstm⟩
    rw [alookup_aupsert] at hst
    have hv : ¬ uid = v := fun hh => hnc (hh ▸ hvc)
    rw [if_neg hv] at hst
    exact ⟨hvc, st, hst, hstm⟩

theorem presenceOK_move_update {users : List (String × UserState)}
    {clients : List String} {presence : List (String × List String)}
    (h : PresenceOK users clients presence) {uid : String} {user : UserState}
    (hu : alookup uid users = some user) (hc : uid ∈ clients)
    (user' : UserState) :
    PresenceOK (aupsert uid user' users) clients
      (presenceMove presence uid user.position.map_id user'.position.map_id) := by
  intro v m
  rw [mem_presenceMove]
  by_cases hft : user.position.map_id = user'.position.map_id
  · rw [if_pos hft]
    exact presenceOK_aupsert_same_map h hu hft.symm v m
  · rw [if_neg hft]
    constructor
    · rintro (⟨rfl, rfl⟩ | ⟨hmem, hnot⟩)
      · refine ⟨hc, user', ?_, rfl⟩
        rw [alookup_aupsert, if_pos rfl]
      · rcases (h v m).mp hmem with ⟨hvc, st, hst, hstm⟩
        by_cases hv : uid = v
        · subst hv
          rw [hu] at hst
          cases hst
          exact absurd ⟨hstm.symm, rfl⟩ hnot
        · refine ⟨hvc, st, ?_, hstm⟩
          rw [alookup_aupsert, if_neg hv]
          exact hst
    · rintro ⟨hvc, st, hst, hstm⟩
      rw [alookup_aupsert] at hst
      by_cases hv : uid = v
      · rw [if_pos hv] at hst
        cases hst
        subst hv
        exact Or.inl ⟨hstm.symm, rfl⟩
      · rw [if_neg hv] at hst
        refine Or.inr ⟨(h v m).mpr ⟨hvc, st, hst, hstm⟩, ?_⟩
        rintro ⟨rfl, rfl⟩
        exact hv rfl

theorem presenceOK_register {users : List (String × UserState)}
    {clients : List String} {presence : List (String × List String)}
    (h : PresenceOK users clients presence) {uid : String} {user : UserState}
    (hu : alookup uid users = some user) (hnc : uid ∉ clients) :
    PresenceOK users (hsInsert uid clients)
      (presenceAdd presence uid user.position.map_id) := by
  intro v m
  rw [mem_presenceAdd]
  constructor
  · rintro (⟨rfl, rfl⟩ | hmem)
    · exact ⟨mem_hsInsert.mpr (Or.inl rfl), user, hu, rfl⟩
    · rcases (h v m).mp hmem with ⟨hvc, st, hst, hstm⟩
      exact ⟨mem_hsInsert.mpr (Or.inr hvc), st, hst, hstm⟩
  · rintro ⟨hvi, st, hst, hstm⟩
    rcases mem_hsInsert.mp hvi with hv | hvc
    · subst hv
      rw [hu] at hst
      cases hst
      exact Or.inl ⟨hstm.symm, rfl⟩
    · exact Or.inr ((h v m).mpr ⟨hvc, st, hst, hstm⟩)

theorem presenceOK_disconnect {users : List (String × UserState)}
    {clients : List String} {presence : List (String × List String)}
    (h : PresenceOK users clients presence) {uid : String} {user : UserState}
    (hu : alookup uid users = some user) :
    PresenceOK users (clients.filter (fun c => c ≠ uid))
      (presenceRemove presence uid user.position.map_id) := by
  intro v m
  rw [mem_presenceRemove]
  constructor
  · rintro ⟨hmem, hnot⟩
    rcases (h v m).mp hmem with ⟨hvc, st, hst, hstm⟩
    refine ⟨List.mem_filter.mpr ⟨hvc, ?_⟩, st, hst, hstm⟩
    simp only [ne_eq, decide_not, Bool.not_eq_true', decide_eq_false_iff_not]
    intro hv
    subst hv
    rw [hu] at hst
    cases hst
    exact hnot ⟨hstm.symm, rfl⟩
  · rintro ⟨hvf, st, hst, hstm⟩
    rcases List.mem_filter.mp hvf with ⟨hvc, hvne⟩
    have hvu : v ≠ uid := by simpa using hvne
    refine ⟨(h v m).mpr ⟨hvc, st, hst, hstm⟩, ?_⟩
    rintro ⟨_, rfl⟩
    exact hvu rfl

theorem userKeysOK_aupsert {users : List (String × UserState)}
    (h : UserKeysOK users) {uid : String} {user' : UserState}
    (hid : user'.user_id = uid) : UserKeysOK (aupsert uid user' users) := by
  intro k st hst
  rw [alookup_aupsert] at hst
  by_cases hk : uid = k
  · rw [if_pos hk] at hst
    cases hst
    exact hid.trans hk
  · rw [if_neg hk] at hst
    exact h k st hst

theorem StateWF_of_eq_fields {s t : RelayState}
    (hU : t.users = s.users) (hC : t.clients = s.clients)
    (hP : t.connected_users_by_map = s.connected_users_by_map)
    (hB : t.boarding = s.boarding) (hR : t.riders = s.riders)
    (hwf : StateWF s) : StateWF t := by
  refine ⟨?_, ?_, ?_⟩
  · rw [hU, hC, hP]
    exact hwf.1
  · rw [hU]
    exact hwf.2.1
  · unfold TicketsOK
    rw [hB, hC, hR]
    exact hwf.2.2

theorem StateWF_users_upsert_same_map {s : RelayState} (hwf : StateWF s)
    {uid : String} {entry entry' : UserState}
    (hu : alookup uid s.users = some entry) (hid : entry'.user_id = entry.user_id)
    (hm : entry'.position.map_id = entry.position.map_id) :
    StateWF { s with users := aupsert uid entry' s.users } :=
  ⟨presenceOK_aupsert_same_map hwf.1 hu hm,
   userKeysOK_aupsert hwf.2.1 (hid.trans (hwf.2.1 uid entry hu)),
   hwf.2.2⟩

theorem StateWF_create_user {s : RelayState} (hwf : StateWF s) (pubkey : String)
    (hfresh : ("u_" ++ toString s.next_user_id) ∉ s.clients) :
    StateWF (create_user s pubkey).2 :=
  ⟨presenceOK_aupsert_unconnected hwf.1 hfresh _,
   userKeysOK_aupsert hwf.2.1 rfl,
   hwf.2.2⟩

theorem update_user_position_eq (s : RelayState) (uid : String) (pos : Position)
    (user : UserState) (hu : alookup uid s.users = some user) :
    update_user_position s uid pos =
      { s with users := aupsert uid { user with position := pos } s.users } := by
  unfold update_user_position
  rw [hu]

theorem StateWF_update_same_map (s : RelayState) (uid : String) (pos : Position)
    (user : UserState) (hu : alookup uid s.users = some user)
    (hm : pos.map_id = user.position.map_id) (hwf : StateWF s) :
    StateWF (update_user_position s uid pos) := by
  rw [update_user_position_eq s uid pos user hu]
  exact StateWF_users_upsert_same_map hwf hu rfl hm

theorem gocr_fields (s : RelayState) (rid price : String) :
    (RelayState.get_or_create_room s rid price).2.users = s.users ∧
    (RelayState.get_or_create_room s rid price).2.clients = s.clients ∧
    (RelayState.get_or_create_room s rid price).2.connected_users_by_map =
      s.connected_users_by_map ∧
    (RelayState.get_or_create_room s rid price).2.boarding = s.boarding ∧
    (RelayState.get_or_create_room s rid price).2.riders = s.riders := by
  unfold RelayState.get_or_create_room
  cases alookup rid s.rooms <;> exact ⟨rfl, rfl, rfl, rfl, rfl⟩

theorem board_entry_wf (updates : List TrainUpdate) (s : RelayState) (uid : String)
    (req : BoardingRequest) (hwf : StateWF s) (hc : uid ∈ s.clients) :
    StateWF (board_entry updates s uid req).1 ∧
      (board_entry updates s uid req).1.clients = s.clients := by
  unfold board_entry
  repeat' split
  all_goals try simp only []
  repeat' split
  all_goals try exact ⟨hwf, rfl⟩
  all_goals try exact ⟨hwf, trivial⟩
  all_goals rename_i user heq hvalid hmem
  all_goals
    refine ⟨⟨?_, ?_, ?_⟩, ?_⟩
    · exact presenceOK_move_update hwf.1 heq hc _
    · exact userKeysOK_aupsert hwf.2.1 (hwf.2.1 uid user heq)
    · refine ⟨fun e he => hwf.2.2.1 e he, fun e he => ?_⟩
      rcases mem_aupsert he with h' | h'
      · rw [h']
        exact hc
      · exact hwf.2.2.2 e h'
    · first
      | rfl
      | trivial

theorem boarding_loop_wf (updates : List TrainUpdate) :
    ∀ (l : List (String × BoardingRequest)) (s : RelayState), StateWF s →
      (∀ e ∈ l, e.1 ∈ s.clients) →
      StateWF (boarding_loop updates l s).1 ∧
        (boarding_loop updates l s).1.clients = s.clients := by
  intro l
  induction l with
  | nil =>
    intro s hwf _
    exact ⟨hwf, rfl⟩
  | cons e rest ih =>
    intro s hwf hcl
    obtain ⟨uid, req⟩ := e
    have h₁ := board_entry_wf updates s uid req hwf
      (hcl (uid, req) (List.mem_cons_self _ _))
    have h₂ := ih (board_entry updates s uid req).1 h₁.1
      (fun e' he' => by rw [h₁.2]; exact hcl e' (List.mem_cons_of_mem _ he'))
    exact ⟨h₂.1, h₂.2.trans h₁.2⟩

theorem StateWF_foldl_erase_boarding :
    ∀ (l : List String) (s : RelayState), StateWF s →
      StateWF (l.foldl (fun st u => { st with boarding := aerase u st.boarding }) s) := by
  intro l
  induction l with
  | nil =>
    intro s hwf
    exact hwf
  | cons u rest ih =>
    intro s hwf
    exact ih _ ⟨hwf.1, hwf.2.1, fun e he => hwf.2.2.1 e (mem_aerase he), hwf.2.2.2⟩

theorem StateWF_handle_boarding (s : RelayState) (updates : List TrainUpdate)
    (hwf : StateWF s) : StateWF (handle_boarding s updates).1 :=
  StateWF_foldl_erase_boarding _ _
    (boarding_loop_wf updates s.boarding s hwf hwf.2.2.1).1

theorem rider_entry_wf (updates : List TrainUpdate) (s : RelayState) (uid : String)
    (ride : TrainRide) (hwf : StateWF s) (hc : uid ∈ s.clients) :
    StateWF (rider_entry updates s uid ride).1 ∧
      (rider_entry updates s uid ride).1.clients = s.clients := by
  unfold rider_entry
  repeat' split
  all_goals try simp only []
  repeat' split
  all_goals try exact ⟨hwf, rfl⟩
  all_goals try exact ⟨hwf, trivial⟩
  all_goals
    rename UserState => tuser
    rename alookup uid s.users = some _ => heq
    refine ⟨⟨?_, ?_, ?_⟩, ?_⟩
    · exact presenceOK_move_update hwf.1 heq hc _
    · exact userKeysOK_aupsert hwf.2.1 (hwf.2.1 uid tuser heq)
    · exact ⟨fun e he => hwf.2.2.1 e he, fun e he => hwf.2.2.2 e he⟩
    · first
      | rfl
      | trivial

theorem riders_loop_wf (updates : List TrainUpdate) :
    ∀ (l : List (String × TrainRide)) (s : RelayState), StateWF s →
      (∀ e ∈ l, e.1 ∈ s.clients) →
      StateWF (riders_loop updates l s).1 ∧
        (riders_loop updates l s).1.clients = s.clients := by
  intro l
  induction l with
  | nil =>
    intro s hwf _
    exact ⟨hwf, rfl⟩
  | cons e rest ih =>
    intro s hwf hcl
    obtain ⟨uid, ride⟩ := e
    have h₁ := rider_entry_wf updates s uid ride hwf
      (hcl (uid, ride) (List.mem_cons_self _ _))
    have h₂ := ih (rider_entry updates s uid ride).1 h₁.1
      (fun e' he' => by rw [h₁.2]; exact hcl e' (List.mem_cons_of_mem _ he'))
    exact ⟨h₂.1, h₂.2.trans h₁.2⟩

theorem StateWF_foldl_erase_riders :
    ∀ (l : List String) (s : RelayState), StateWF s →
      StateWF (l.foldl (fun st u => { st with riders := aerase u st.riders }) s) := by
  intro l
  induction l with
  | nil =>
    intro s hwf
    exact hwf
  | cons u rest ih =>
    intro s hwf
    exact ih _ ⟨hwf.1, hwf.2.1, hwf.2.2.1, fun e he => hwf.2.2.2 e (mem_aerase he)⟩

theorem StateWF_handle_riders (s : RelayState) (updates : List TrainUpdate)
    (hwf : StateWF s) : StateWF (handle_riders s updates).1 :=
  StateWF_foldl_erase_riders _ _
    (riders_loop_wf updates s.riders s hwf hwf.2.2.2).1

theorem StateWF_disconnect (s : RelayState) (uid : String) (user : UserState)
    (hu : alookup uid s.users = some user) (hwf : StateWF s) :
    StateWF (disconnect s uid user.position.map_id).1 := by
  refine ⟨?_, ?_, ?_⟩
  · exact presenceOK_disconnect hwf.1 hu
  · exact hwf.2.1
  · refine ⟨fun e he => ?_, fun e he => ?_⟩
    · exact List.mem_filter.mpr
        ⟨hwf.2.2.1 e (mem_aerase he), by simpa using mem_aerase_ne he⟩
    · exact List.mem_filter.mpr
        ⟨hwf.2.2.2 e (mem_aerase he), by simpa using mem_aerase_ne he⟩

theorem gocr_snd_eq (s : RelayState) (rid price : String) :
    (RelayState.get_or_create_room s rid price).2 =
      { s with rooms := (RelayState.get_or_create_room s rid price).2.rooms } := by
  unfold RelayState.get_or_create_room
  cases alookup rid s.rooms <;> rfl

theorem StateWF_transition_mutation (s : RelayState) (uid : String) (pos : Position)
    (user : UserState) (c : Prop) [Decidable c]
    (hu : alookup uid s.users = some user) (hc : uid ∈ s.clients)
    (hwf : StateWF s) :
    StateWF (RelayState.move_connected_user
      (if c then { update_user_position s uid pos with
          boarding := aerase uid (update_user_position s uid pos).boarding }
        else update_user_position s uid pos)
      uid user.position.map_id pos.map_id) := by
  rw [update_user_position_eq s uid pos user hu]
  by_cases hcond : c
  · rw [if_pos hcond]
    refine ⟨?_, ?_, ?_⟩
    · exact presenceOK_move_update hwf.1 hu hc _
    · exact userKeysOK_aupsert hwf.2.1 (hwf.2.1 uid user hu)
    · exact ⟨fun e he => hwf.2.2.1 e (mem_aerase he), fun e he => hwf.2.2.2 e he⟩
  · rw [if_neg hcond]
    refine ⟨?_, ?_, ?_⟩
    · exact presenceOK_move_update hwf.1 hu hc _
    · exact userKeysOK_aupsert hwf.2.1 (hwf.2.1 uid user hu)
    · exact ⟨fun e he => hwf.2.2.1 e he, fun e he => hwf.2.2.2 e he⟩

theorem StateWF_handle_move (now : Int) (dir : Direction) (user : UserState)
    (s : RelayState) (config : RelayConfig)
    (hu : alookup user.user_id s.users = some user) (hc : user.user_id ∈ s.clients)
    (hwf : StateWF s) : StateWF (handle_move now dir user s config).1 := by
  unfold handle_move
  split
  · -- blocked
    simp only []
    split
    · exact hwf
    · exact hwf
  · -- moved within the map
    rename_i pos heq
    simp only []
    split
    · exact hwf
    · exact StateWF_update_same_map _ user.user_id pos user hu
        (try_move_moved_map _ _ _ heq) hwf
  · -- transition
    rename_i pos heq
    simp only []
    split
    · exact hwf
    · split
      · -- into a room: access check after get_or_create_room
        rename_i sx hparse
        rw [gocr_snd_eq]
        split
        · -- denied
          exact hwf
        · -- allowed: position update, boarding scrub, presence move
          exact StateWF_transition_mutation _ user.user_id pos user _ hu hc hwf
      · -- to the street, a station or a train
        exact StateWF_transition_mutation _ user.user_id pos user _ hu hc hwf

theorem StateWF_register_step {s₂ : RelayState} (hwf₂ : StateWF s₂) {uid m : String}
    {u₂ : UserState} (hu : alookup uid s₂.users = some u₂)
    (hm : m = u₂.position.map_id) (hnc : uid ∉ s₂.clients) :
    StateWF (RelayState.add_connected_user
      { s₂ with clients := hsInsert uid s₂.clients } uid m) := by
  subst hm
  refine ⟨?_, ?_, ?_⟩
  · exact presenceOK_register hwf₂.1 hu hnc
  · exact hwf₂.2.1
  · exact ⟨fun e he => mem_hsInsert.mpr (Or.inr (hwf₂.2.2.1 e he)),
      fun e he => mem_hsInsert.mpr (Or.inr (hwf₂.2.2.2 e he))⟩

theorem StateWF_auth_register (s : RelayState) (w : MockWallet) (pubkey : String)
    (x : Option String) (sid : String)
    (hfresh : ("u_" ++ toString s.next_user_id) ∉ s.clients) (hwf : StateWF s) :
    StateWF (auth_register s w pubkey x sid).1 := by
  have hclu : alookup (create_user s pubkey).1.user_id
      (create_user s pubkey).2.users = some (create_user s pubkey).1 := by
    simp only [create_user]
    rw [alookup_aupsert, if_pos rfl]
  unfold auth_register
  repeat' split
  · -- existing user found, x25519 update provided
    rename_i k
    rename UserState => u0
    rename alookup _ s.users = some _ => huu
    simp only []
    split
    · -- duplicate session rejected after the x25519 overwrite
      split
      · rename_i e2 hinner
        exact StateWF_users_upsert_same_map hwf hinner rfl rfl
      · exact hwf
    · -- session accepted
      rename_i hni
      split
      · rename_i e2 hinner
        rw [hinner] at hni
        have hkey := hwf.2.1 _ u0 huu
        have hinner' := hinner
        rw [hkey, huu] at hinner'
        cases hinner'
        have hu₂ : alookup u0.user_id
            (aupsert u0.user_id { u0 with x25519_pubkey := some k } s.users) =
            some { u0 with x25519_pubkey := some k } := by
          rw [alookup_aupsert, if_pos rfl]
        have hwf₂ : StateWF { s with
            users := aupsert u0.user_id { u0 with x25519_pubkey := some k } s.users } :=
          StateWF_users_upsert_same_map hwf hinner rfl rfl
        exact StateWF_register_step hwf₂ hu₂ rfl hni
      · -- stored record missing: contradicts the fetch
        rename_i hinner
        have hkey := hwf.2.1 _ u0 huu
        rw [hkey, huu] at hinner
        cases hinner
  · -- existing user found, no x25519 in the payload
    rename UserState => u0
    rename alookup _ s.users = some _ => huu
    simp only []
    split
    · exact hwf
    · rename_i hni
      have hkey := hwf.2.1 _ u0 huu
      have hu₂ : alookup u0.user_id s.users = some u0 := by
        rw [hkey]
        exact huu
      exact StateWF_register_step hwf hu₂ rfl hni
  · -- pubkey known but record lost: recreated, x25519 provided
    rename_i k
    simp only []
    split
    · split
      · rename_i e2 hinner
        exact StateWF_users_upsert_same_map
          (StateWF_create_user hwf pubkey hfresh) hinner rfl rfl
      · exact StateWF_create_user hwf pubkey hfresh
    · rename_i hni
      split
      · rename_i e2 hinner
        rw [hinner] at hni
        have hinner' := hinner
        rw [hclu] at hinner'
        cases hinner'
        have hu₂ : alookup (create_user s pubkey).1.user_id
            (aupsert (create_user s pubkey).1.user_id
              { (create_user s pubkey).1 with x25519_pubkey := some k }
              (create_user s pubkey).2.users) =
            some { (create_user s pubkey).1 with x25519_pubkey := some k } := by
          rw [alookup_aupsert, if_pos rfl]
        have hwf₂ : StateWF { (create_user s pubkey).2 with
            users := aupsert (create_user s pubkey).1.user_id
              { (create_user s pubkey).1 with x25519_pubkey := some k }
              (create_user s pubkey).2.users } :=
          StateWF_users_upsert_same_map
            (StateWF_create_user hwf pubkey hfresh) hinner rfl rfl
        exact StateWF_register_step hwf₂ hu₂ rfl hni
      · rename_i hinner
        rw [hclu] at hinner
        cases hinner
  · -- pubkey known but record lost: recreated, no x25519
    simp only []
    split
    · exact StateWF_create_user hwf pubkey hfresh
    · rename_i hni
      exact StateWF_register_step (StateWF_create_user hwf pubkey hfresh)
        hclu rfl hni
  · -- brand-new pubkey (wallet credited), x25519 provided
    rename_i k
    simp only []
    split
    · split
      · rename_i e2 hinner
        exact StateWF_users_upsert_same_map
          (StateWF_create_user hwf pubkey hfresh) hinner rfl rfl
      · exact StateWF_create_user hwf pubkey hfresh
    · rename_i hni
      split
      · rename_i e2 hinner
        rw [hinner] at hni
        have hinner' := hinner
        rw [hclu] at hinner'
        cases hinner'
        have hu₂ : alookup (create_user s pubkey).1.user_id
            (aupsert (create_user s pubkey).1.user_id
              { (create_user s pubkey).1 with x25519_pubkey := some k }
              (create_user s pubkey).2.users) =
            some { (create_user s pubkey).1 with x25519_pubkey := some k } := by
          rw [alookup_aupsert, if_pos rfl]
        have hwf₂ : StateWF { (create_user s pubkey).2 with
            users := aupsert (create_user s pubkey).1.user_id
              { (create_user s pubkey).1 with x25519_pubkey := some k }
              (create_user s pubkey).2.users } :=
          StateWF_users_upsert_same_map
            (StateWF_create_user hwf pubkey hfresh) hinner rfl rfl
        exact StateWF_register_step hwf₂ hu₂ rfl hni
      · rename_i hinner
        rw [hclu] at hinner
        cases hinner
  · -- brand-new pubkey (wallet credited), no x25519
    simp only []
    split
    · exact StateWF_create_user hwf pubkey hfresh
    · rename_i hni
      exact StateWF_register_step (StateWF_create_user hwf pubkey hfresh)
        hclu rfl hni

/-- Core presence effect of a position write paired with its presence move
(the atomic pattern of `handle_move` transitions, boarding and disembarking):
completeness and soundness are both preserved, for any stored user, connected
or not. -/
theorem presence_core_move {users : List (String × UserState)}
    {clients : List String} {presence : List (String × List String)}
    (ha : PresenceComplete users clients presence)
    (hb : PresenceSound users presence)
    {uid : String} {user : UserState} (hu : alookup uid users = some user)
    (user' : UserState) :
    PresenceComplete (aupsert uid user' users) clients
      (presenceMove presence uid user.position.map_id user'.position.map_id) ∧
    PresenceSound (aupsert uid user' users)
      (presenceMove presence uid user.position.map_id user'.position.map_id) := by
  constructor
  · intro v hv
    by_cases hvu : uid = v
    · subst hvu
      refine ⟨user', by rw [alookup_aupsert, if_pos rfl], ?_⟩
      rw [mem_presenceMove]
      by_cases hft : user.position.map_id = user'.position.map_id
      · rw [if_pos hft]
        rcases ha uid hv with ⟨st, hst, hmem⟩
        rw [hu] at hst
        cases hst
        rw [← hft]
        exact hmem
      · rw [if_neg hft]
        exact Or.inl ⟨rfl, rfl⟩
    · rcases ha v hv with ⟨st, hst, hmem⟩
      refine ⟨st, by rw [alookup_aupsert, if_neg hvu]; exact hst, ?_⟩
      rw [mem_presenceMove]
      by_cases hft : user.position.map_id = user'.position.map_id
      · rw [if_pos hft]
        exact hmem
      · rw [if_neg hft]
        refine Or.inr ⟨hmem, ?_⟩
        rintro ⟨-, rfl⟩
        exact hvu rfl
  · intro v m hvm
    rw [mem_presenceMove] at hvm
    by_cases hft : user.position.map_id = user'.position.map_id
    · rw [if_pos hft] at hvm
      rcases hb v m hvm with ⟨st, hst, hstm⟩
      by_cases hvu : uid = v
      · subst hvu
        rw [hu] at hst
        cases hst
        exact ⟨user', by rw [alookup_aupsert, if_pos rfl], hft.symm.trans hstm⟩
      · exact ⟨st, by rw [alookup_aupsert, if_neg hvu]; exact hst, hstm⟩
    · rw [if_neg hft] at hvm
      rcases hvm with ⟨rfl, rfl⟩ | ⟨hmem, hne⟩
      · exact ⟨user', by rw [alookup_aupsert, if_pos rfl], rfl⟩
      · rcases hb v m hmem with ⟨st, hst, hstm⟩
        by_cases hvu : uid = v
        · subst hvu
          rw [hu] at hst
          cases hst
          exact absurd ⟨hstm.symm, rfl⟩ hne
        · exact ⟨st, by rw [alookup_aupsert, if_neg hvu]; exact hst, hstm⟩

theorem StateInv_users_upsert_same_map {s : RelayState} (hinv : StateInv s)
    {uid : String} {entry entry' : UserState}
    (hu : alookup uid s.users = some entry) (hid : entry'.user_id = entry.user_id)
    (hm : entry'.position.map_id = entry.position.map_id) :
    StateInv { s with users := aupsert uid entry' s.users } := by
  obtain ⟨ha, hb, hk⟩ := hinv
  refine ⟨?_, ?_, userKeysOK_aupsert hk (hid.trans (hk uid entry hu))⟩
  · intro v hv
    rcases ha v hv with ⟨st, hst, hmem⟩
    by_cases hvu : uid = v
    · subst hvu
      rw [hu] at hst
      cases hst
      refine ⟨entry', by rw [alookup_aupsert, if_pos rfl], ?_⟩
      rw [hm]
      exact hmem
    · exact ⟨st, by rw [alookup_aupsert, if_neg hvu]; exact hst, hmem⟩
  · intro v m hvm
    rcases hb v m hvm with ⟨st, hst, hstm⟩
    by_cases hvu : uid = v
    · subst hvu
      rw [hu] at hst
      cases hst
      exact ⟨entry', by rw [alookup_aupsert, if_pos rfl], hm.trans hstm⟩
    · exact ⟨st, by rw [alookup_aupsert, if_neg hvu]; exact hst, hstm⟩

theorem StateInv_create_user {s : RelayState} (hinv : StateInv s) (pubkey : String)
    (hfresh : alookup ("u_" ++ toString s.next_user_id) s.users = none) :
    StateInv (create_user s pubkey).2 := by
  obtain ⟨ha, hb, hk⟩ := hinv
  refine ⟨?_, ?_, userKeysOK_aupsert hk rfl⟩
  · show PresenceComplete (aupsert ("u_" ++ toString s.next_user_id) _ s.users)
      s.clients s.connected_users_by_map
    intro v hv
    rcases ha v hv with ⟨st, hst, hmem⟩
    by_cases hvu : ("u_" ++ toString s.next_user_id) = v
    · subst hvu
      rw [hfresh] at hst
      cases hst
    · exact ⟨st, by rw [alookup_aupsert, if_neg hvu]; exact hst, hmem⟩
  · show PresenceSound (aupsert ("u_" ++ toString s.next_user_id) _ s.users)
      s.connected_users_by_map
    intro v m hvm
    rcases hb v m hvm with ⟨st, hst, hstm⟩
    by_cases hvu : ("u_" ++ toString s.next_user_id) = v
    · subst hvu
      rw [hfresh] at hst
      cases hst
    · exact ⟨st, by rw [alookup_aupsert, if_neg hvu]; exact hst, hstm⟩

theorem StateInv_update_same_map (s : RelayState) (uid : String) (pos : Position)
    (user : UserState) (hu : alookup uid s.users = some user)
    (hm : pos.map_id = user.position.map_id) (hinv : StateInv s) :
    StateInv (update_user_position s uid pos) := by
  rw [update_user_position_eq s uid pos user hu]
  exact StateInv_users_upsert_same_map hinv hu rfl hm

theorem StateInv_transition_mutation (s : RelayState) (uid : String)
    (pos : Position) (user : UserState) (c : Prop) [Decidable c]
    (hu : alookup uid s.users = some user) (hinv : StateInv s) :
    StateInv (RelayState.move_connected_user
      (if c then { update_user_position s uid pos with
          boarding := aerase uid (update_user_position s uid pos).boarding }
        else update_user_position s uid pos)
      uid user.position.map_id pos.map_id) := by
  rw [update_user_position_eq s uid pos user hu]
  have hcore := presence_core_move hinv.1 hinv.2.1 hu { user with position := pos }
  by_cases hcond : c
  · rw [if_pos hcond]
    exact ⟨hcore.1, hcore.2, userKeysOK_aupsert hinv.2.2 (hinv.2.2 uid user hu)⟩
  · rw [if_neg hcond]
    exact ⟨hcore.1, hcore.2, userKeysOK_aupsert hinv.2.2 (hinv.2.2 uid user hu)⟩

theorem StateInv_handle_move (now : Int) (dir : Direction) (user : UserState)
    (s : RelayState) (config : RelayConfig)
    (hu : alookup user.user_id s.users = some user)
    (hinv : StateInv s) : StateInv (handle_move now dir user s config).1 := by
  unfold handle_move
  split
  · simp only []
    split
    · exact hinv
    · exact hinv
  · rename_i pos heq
    simp only []
    split
    · exact hinv
    · exact StateInv_update_same_map _ user.user_id pos user hu
        (try_move_moved_map _ _ _ heq) hinv
  · rename_i pos heq
    simp only []
    split
    · exact hinv
    · split
      · rename_i sx hparse
        rw [gocr_snd_eq]
        split
        · exact hinv
        · exact StateInv_transition_mutation _ user.user_id pos user _ hu hinv
      · exact StateInv_transition_mutation _ user.user_id pos user _ hu hinv

theorem board_entry_inv (updates : List TrainUpdate) (s : RelayState)
    (uid : String) (req : BoardingRequest) (hinv : StateInv s) :
    StateInv (board_entry updates s uid req).1 := by
  unfold board_entry
  repeat' split
  all_goals try exact hinv
  all_goals try simp only []
  repeat' split
  all_goals try exact hinv
  all_goals
    rename UserState => tuser
    rename alookup uid s.users = some _ => heq
    refine ⟨?_, ?_, ?_⟩
    · exact (presence_core_move hinv.1 hinv.2.1 heq _).1
    · exact (presence_core_move hinv.1 hinv.2.1 heq _).2
    · exact userKeysOK_aupsert hinv.2.2 (hinv.2.2 uid tuser heq)

theorem boarding_loop_inv (updates : List TrainUpdate) :
    ∀ (l : List (String × BoardingRequest)) (s : RelayState), StateInv s →
      StateInv (boarding_loop updates l s).1 := by
  intro l
  induction l with
  | nil =>
    intro s hinv
    exact hinv
  | cons e rest ih =>
    intro s hinv
    obtain ⟨uid, req⟩ := e
    exact ih _ (board_entry_inv updates s uid req hinv)

theorem StateInv_foldl_erase_boarding :
    ∀ (l : List String) (s : RelayState), StateInv s →
      StateInv (l.foldl (fun st u => { st with boarding := aerase u st.boarding }) s) := by
  intro l
  induction l with
  | nil =>
    intro s hinv
    exact hinv
  | cons u rest ih =>
    intro s hinv
    exact ih _ hinv

theorem StateInv_handle_boarding (s : RelayState) (updates : List TrainUpdate)
    (hinv : StateInv s) : StateInv (handle_boarding s updates).1 :=
  StateInv_foldl_erase_boarding _ _ (boarding_loop_inv updates s.boarding s hinv)

theorem rider_entry_inv (updates : List TrainUpdate) (s : RelayState)
    (uid : String) (ride : TrainRide) (hinv : StateInv s) :
    StateInv (rider_entry updates s uid ride).1 := by
  unfold rider_entry
  repeat' split
  all_goals try exact hinv
  all_goals try simp only []
  repeat' split
  all_goals try exact hinv
  all_goals
    rename UserState => tuser
    rename alookup uid s.users = some _ => heq
    refine ⟨?_, ?_, ?_⟩
    · exact (presence_core_move hinv.1 hinv.2.1 heq _).1
    · exact (presence_core_move hinv.1 hinv.2.1 heq _).2
    · exact userKeysOK_aupsert hinv.2.2 (hinv.2.2 uid tuser heq)

theorem riders_loop_inv (updates : List TrainUpdate) :
    ∀ (l : List (String × TrainRide)) (s : RelayState), StateInv s →
      StateInv (riders_loop updates l s).1 := by
  intro l
  induction l with
  | nil =>
    intro s hinv
    exact hinv
  | cons e rest ih =>
    intro s hinv
    obtain ⟨uid, ride⟩ := e
    exact ih _ (rider_entry_inv updates s uid ride hinv)

theorem StateInv_foldl_erase_riders :
    ∀ (l : List String) (s : RelayState), StateInv s →
      StateInv (l.foldl (fun st u => { st with riders := aerase u st.riders }) s) := by
  intro l
  induction l with
  | nil =>
    intro s hinv
    exact hinv
  | cons u rest ih =>
    intro s hinv
    exact ih _ hinv

theorem StateInv_handle_riders (s : RelayState) (updates : List TrainUpdate)
    (hinv : StateInv s) : StateInv (handle_riders s updates).1 :=
  StateInv_foldl_erase_riders _ _ (riders_loop_inv updates s.riders s hinv)

/-- Disconnect preserves the strengthening for an ARBITRARY session map
snapshot: removal only shrinks the presence sets, and completeness for the
remaining clients does not involve the dropped session. -/
theorem StateInv_disconnect (s : RelayState) (uid map_id : String)
    (hinv : StateInv s) : StateInv (disconnect s uid map_id).1 := by
  obtain ⟨ha, hb, hk⟩ := hinv
  refine ⟨?_, ?_, hk⟩
  · show PresenceComplete s.users (s.clients.filter (fun c => c ≠ uid))
      (presenceRemove s.connected_users_by_map uid map_id)
    intro v hv
    rcases List.mem_filter.mp hv with ⟨hvc, hvne⟩
    have hvu : v ≠ uid := by simpa using hvne
    rcases ha v hvc with ⟨st, hst, hmem⟩
    refine ⟨st, hst, ?_⟩
    rw [mem_presenceRemove]
    exact ⟨hmem, fun h => hvu h.2⟩
  · show PresenceSound s.users
      (presenceRemove s.connected_users_by_map uid map_id)
    intro v m hvm
    rw [mem_presenceRemove] at hvm
    exact hb v m hvm.1

theorem StateInv_register_step {s₂ : RelayState} (hinv₂ : StateInv s₂)
    {uid m : String} {u₂ : UserState} (hu : alookup uid s₂.users = some u₂)
    (hm : m = u₂.position.map_id) :
    StateInv (RelayState.add_connected_user
      { s₂ with clients := hsInsert uid s₂.clients } uid m) := by
  subst hm
  obtain ⟨ha, hb, hk⟩ := hinv₂
  refine ⟨?_, ?_, hk⟩
  · show PresenceComplete s₂.users (hsInsert uid s₂.clients)
      (presenceAdd s₂.connected_users_by_map uid u₂.position.map_id)
    intro v hv
    rcases mem_hsInsert.mp hv with rfl | hvc
    · refine ⟨u₂, hu, ?_⟩
      rw [mem_presenceAdd]
      exact Or.inl ⟨rfl, rfl⟩
    · rcases ha v hvc with ⟨st, hst, hmem⟩
      refine ⟨st, hst, ?_⟩
      rw [mem_presenceAdd]
      exact Or.inr hmem
  · show PresenceSound s₂.users
      (presenceAdd s₂.connected_users_by_map uid u₂.position.map_id)
    intro v m' hvm
    rw [mem_presenceAdd] at hvm
    rcases hvm with ⟨rfl, rfl⟩ | hmem
    · exact ⟨u₂, hu, rfl⟩
    · exact hb v m' hmem

theorem StateInv_auth_register (s : RelayState) (w : MockWallet) (pubkey : String)
    (x : Option String) (sid : String)
    (hfresh : alookup ("u_" ++ toString s.next_user_id) s.users = none)
    (hinv : StateInv s) :
    StateInv (auth_register s w pubkey x sid).1 := by
  have hclu : alookup (create_user s pubkey).1.user_id
      (create_user s pubkey).2.users = some (create_user s pubkey).1 := by
    simp only [create_user]
    rw [alookup_aupsert, if_pos rfl]
  unfold auth_register
  repeat' split
  · -- existing user found, x25519 update provided
    rename_i k
    rename UserState => u0
    rename alookup _ s.users = some _ => huu
    simp only []
    split
    · -- duplicate session rejected after the x25519 overwrite
      split
      · rename_i e2 hinner
        exact StateInv_users_upsert_same_map hinv hinner rfl rfl
      · exact hinv
    · -- session accepted
      split
      · rename_i e2 hinner
        have hkey := hinv.2.2 _ u0 huu
        have hinner' := hinner
        rw [hkey, huu] at hinner'
        cases hinner'
        have hu₂ : alookup u0.user_id
            (aupsert u0.user_id { u0 with x25519_pubkey := some k } s.users) =
            some { u0 with x25519_pubkey := some k } := by
          rw [alookup_aupsert, if_pos rfl]
        have hinv₂ : StateInv { s with
            users := aupsert u0.user_id { u0 with x25519_pubkey := some k } s.users } :=
          StateInv_users_upsert_same_map hinv hinner rfl rfl
        exact StateInv_register_step hinv₂ hu₂ rfl
      · -- stored record missing: contradicts the fetch
        rename_i hinner
        have hkey := hinv.2.2 _ u0 huu
        rw [hkey, huu] at hinner
        cases hinner
  · -- existing user found, no x25519 in the payload
    rename UserState => u0
    rename alookup _ s.users = some _ => huu
    simp only []
    split
    · exact hinv
    · have hkey := hinv.2.2 _ u0 huu
      have hu₂ : alookup u0.user_id s.users = some u0 := by
        rw [hkey]
        exact huu
      exact StateInv_register_step hinv hu₂ rfl
  · -- pubkey known but record lost: recreated, x25519 provided
    rename_i k
    simp only []
    split
    · split
      · rename_i e2 hinner
        exact StateInv_users_upsert_same_map
          (StateInv_create_user hinv pubkey hfresh) hinner rfl rfl
      · exact StateInv_create_user hinv pubkey hfresh
    · split
      · rename_i e2 hinner
        have hinner' := hinner
        rw [hclu] at hinner'
        cases hinner'
        have hu₂ : alookup (create_user s pubkey).1.user_id
            (aupsert (create_user s pubkey).1.user_id
              { (create_user s pubkey).1 with x25519_pubkey := some k }
              (create_user s pubkey).2.users) =
            some { (create_user s pubkey).1 with x25519_pubkey := some k } := by
          rw [alookup_aupsert, if_pos rfl]
        have hinv₂ : StateInv { (create_user s pubkey).2 with
            users := aupsert (create_user s pubkey).1.user_id
              { (create_user s pubkey).1 with x25519_pubkey := some k }
              (create_user s pubkey).2.users } :=
          StateInv_users_upsert_same_map
            (StateInv_create_user hinv pubkey hfresh) hinner rfl rfl
        exact StateInv_register_step hinv₂ hu₂ rfl
      · rename_i hinner
        rw [hclu] at hinner
        cases hinner
  · -- pubkey known but record lost: recreated, no x25519
    simp only []
    split
    · exact StateInv_create_user hinv pubkey hfresh
    · exact StateInv_register_step (StateInv_create_user hinv pubkey hfresh)
        hclu rfl
  · -- brand-new pubkey (wallet credited), x25519 provided
    rename_i k
    simp only []
    split
    · split
      · rename_i e2 hinner
        exact StateInv_users_upsert_same_map
          (StateInv_create_user hinv pubkey hfresh) hinner rfl rfl
      · exact StateInv_create_user hinv pubkey hfresh
    · split
      · rename_i e2 hinner
        have hinner' := hinner
        rw [hclu] at hinner'
        cases hinner'
        have hu₂ : alookup (create_user s pubkey).1.user_id
            (aupsert (create_user s pubkey).1.user_id
              { (create_user s pubkey).1 with x25519_pubkey := some k }
              (create_user s pubkey).2.users) =
            some { (create_user s pubkey).1 with x25519_pubkey := some k } := by
          rw [alookup_aupsert, if_pos rfl]
        have hinv₂ : StateInv { (create_user s pubkey).2 with
            users := aupsert (create_user s pubkey).1.user_id
              { (create_user s pubkey).1 with x25519_pubkey := some k }
              (create_user s pubkey).2.users } :=
          StateInv_users_upsert_same_map
            (StateInv_create_user hinv pubkey hfresh) hinner rfl rfl
        exact StateInv_register_step hinv₂ hu₂ rfl
      · rename_i hinner
        rw [hclu] at hinner
        cases hinner
  · -- brand-new pubkey (wallet credited), no x25519
    simp only []
    split
    · exact StateInv_create_user hinv pubkey hfresh
    · exact StateInv_register_step (StateInv_create_user hinv pubkey hfresh)
        hclu rfl

/-- C2: the presence invariant — every connected user is a member of the
presence set for exactly `position.map_id` — holds in every state satisfying
the ghost-tolerant inductive strengthening `StateInv`, and `StateInv` is
preserved by each state-mutating operation: auth registration (for an id
freshly generated by the monotone counter), non-transition moves and map
transitions (`handle_move`, for the user record the dispatcher fetched from
state), train boarding and disembarking (`handle_boarding`, `handle_riders`),
and disconnect — for an ARBITRARY session map snapshot, covering the snapshot
gone stale when the train tick moved the user after the session's last
message. -/
theorem presence_invariant_preserved (s : RelayState) (hinv : StateInv s) :
    ClaimedPresenceInv s ∧
    (∀ w pubkey x25519 session_id,
      alookup ("u_" ++ toString s.next_user_id) s.users = none →
      StateInv (auth_register s w pubkey x25519 session_id).1) ∧
    (∀ now dir user config, alookup user.user_id s.users = some user →
      StateInv (handle_move now dir user s config).1) ∧
    (∀ updates, StateInv (handle_boarding s updates).1) ∧
    (∀ updates, StateInv (handle_riders s updates).1) ∧
    (∀ uid map_id, StateInv (disconnect s uid map_id).1) := by
  refine ⟨?_, ?_, ?_, ?_, ?_, ?_⟩
  · intro u st hc hu
    constructor
    · rcases hinv.1 u hc with ⟨st', hst', hmem⟩
      rw [hu] at hst'
      cases hst'
      exact hmem
    · intro m hm hmem
      rcases hinv.2.1 u m hmem with ⟨st', hst', hm'⟩
      rw [hu] at hst'
      cases hst'
      exact hm hm'.symm
  · intro w pubkey x25519 session_id hfresh
    exact StateInv_auth_register s w pubkey x25519 session_id hfresh hinv
  · intro now dir user config hu
    exact StateInv_handle_move now dir user s config hu hinv
  · intro updates
    exact StateInv_handle_boarding s updates hinv
  · intro updates
    exact StateInv_handle_riders s updates hinv
  · intro uid map_id
    exact StateInv_disconnect s uid map_id hinv

/-- Witness for C2: at a concrete one-user state the strengthening holds
(discharged by computation), so the claimed presence invariant follows, and
the disconnect conjunct applies even with a stale train-map snapshot. -/
theorem presence_invariant_preserved_witness :
    ClaimedPresenceInv
      (⟨1, [("u_0", ⟨"u_0", "pk", none, ⟨"street", 0, 1⟩, none⟩)],
        [("pk", "u_0")], [], ["u_0"], [("street", ["u_0"])], [], [], [], []⟩ :
        RelayState) ∧
    StateInv (disconnect
      (⟨1, [("u_0", ⟨"u_0", "pk", none, ⟨"street", 0, 1⟩, none⟩)],
        [("pk", "u_0")], [], ["u_0"], [("street", ["u_0"])], [], [], [], []⟩ :
        RelayState) "u_0" "train/0").1 := by
  have hinv : StateInv
      (⟨1, [("u_0", ⟨"u_0", "pk", none, ⟨"street", 0, 1⟩, none⟩)],
        [("pk", "u_0")], [], ["u_0"], [("street", ["u_0"])], [], [], [], []⟩ :
        RelayState) := by
    refine ⟨?_, ?_, ?_⟩
    · intro u hu
      have hu0 : u = "u_0" := by simpa using hu
      subst hu0
      exact ⟨⟨"u_0", "pk", none, ⟨"street", 0, 1⟩, none⟩,
        by simp [alookup], by simp [plistGet, alookup]⟩
    · intro u m hmem
      by_cases hm : ("street" : String) = m
      · subst hm
        have hu0 : u = "u_0" := by
          simpa [plistGet, alookup] using hmem
        subst hu0
        exact ⟨⟨"u_0", "pk", none, ⟨"street", 0, 1⟩, none⟩,
          by simp [alookup], rfl⟩
      · exfalso
        have hnil : u ∈ ([] : List String) := by
          simpa [plistGet, alookup, hm] using hmem
        simp at hnil
    · intro k st hst
      simp only [alookup] at hst
      split at hst
      · rename_i hk
        cases hst
        exact hk
      · cases hst
  exact ⟨(presence_invariant_preserved _ hinv).1,
    (presence_invariant_preserved _ hinv).2.2.2.2.2 "u_0" "train/0"⟩

end TheStreet
